import Mathlib

/-!
Verification development for the alignment_calculation repository.

The definitions below are shallow embeddings of the pandas-based pipeline in
alignment_calculation/calculator.py.  DataFrames are modelled as lists of
records; numeric columns that can hold NaN or infinity are modelled by the
type Flt (an IEEE-style extension of the rationals); columns that can hold
missing values but never infinities are modelled by Option.  Groupby/merge
combinations are modelled by explicit filtering and summation, matching the
unique-key left/inner merges performed by the source.
-/

namespace AlignmentCalc

/-- Model of a pandas float value: NaN, plus or minus infinity, or a finite
value (represented exactly as a rational). -/
inductive Flt where
  | nan : Flt
  | pinf : Flt
  | ninf : Flt
  | fin : ℚ → Flt
deriving DecidableEq, Repr

namespace Flt

/-- Addition with IEEE special-value propagation. -/
def add : Flt → Flt → Flt
  | nan, _ => nan
  | _, nan => nan
  | pinf, ninf => nan
  | ninf, pinf => nan
  | pinf, _ => pinf
  | _, pinf => pinf
  | ninf, _ => ninf
  | _, ninf => ninf
  | fin a, fin b => fin (a + b)

/-- Negation. -/
def neg : Flt → Flt
  | nan => nan
  | pinf => ninf
  | ninf => pinf
  | fin a => fin (-a)

/-- Subtraction. -/
def sub (x y : Flt) : Flt := add x (neg y)

/-- Multiplication with IEEE special-value propagation. -/
def mul : Flt → Flt → Flt
  | nan, _ => nan
  | _, nan => nan
  | pinf, pinf => pinf
  | pinf, ninf => ninf
  | ninf, pinf => ninf
  | ninf, ninf => pinf
  | pinf, fin b => if 0 < b then pinf else if b < 0 then ninf else nan
  | ninf, fin b => if 0 < b then ninf else if b < 0 then pinf else nan
  | fin a, pinf => if 0 < a then pinf else if a < 0 then ninf else nan
  | fin a, ninf => if 0 < a then ninf else if a < 0 then pinf else nan
  | fin a, fin b => fin (a * b)

/-- Division with numpy semantics: a finite nonzero value divided by zero
gives a signed infinity, zero divided by zero gives NaN. -/
def div : Flt → Flt → Flt
  | nan, _ => nan
  | _, nan => nan
  | pinf, pinf => nan
  | pinf, ninf => nan
  | ninf, pinf => nan
  | ninf, ninf => nan
  | pinf, fin b => if 0 ≤ b then pinf else ninf
  | ninf, fin b => if 0 ≤ b then ninf else pinf
  | fin _, pinf => fin 0
  | fin _, ninf => fin 0
  | fin a, fin b =>
      if b = 0 then (if a = 0 then nan else if 0 < a then pinf else ninf)
      else fin (a / b)

/-- Model of pandas Series.clip with scalar lower and upper bounds: the lower
bound is applied first, then the upper bound; NaN passes through unchanged,
and the infinities are clamped to the corresponding bound. -/
def clip (x : Flt) (lo hi : ℚ) : Flt :=
  match x with
  | nan => nan
  | pinf => fin hi
  | ninf => fin lo
  | fin a => fin (min (max a lo) hi)

/-- Strict greater-than comparison against a rational threshold, with the
pandas convention that any comparison involving NaN is False. -/
def gtq (x : Flt) (a : ℚ) : Bool :=
  match x with
  | nan => false
  | pinf => true
  | ninf => false
  | fin b => a < b

/-- Model of a pandas groupby sum: NaN entries are skipped (treated as zero)
and the remaining entries are added with IEEE semantics. -/
def psum (xs : List Flt) : Flt :=
  (xs.filter (fun x => x ≠ nan)).foldr add (fin 0)

end Flt

/-- Conversion of an optional rational (a possibly missing cell) to a float
value, missing becoming NaN. -/
def ofOpt : Option ℚ → Flt
  | none => Flt.nan
  | some q => Flt.fin q

/-! ## Target Calculator: the rows of the PACTA frame inside _calculate_pacta

A row of df_pacta after the scenario merge: the company-indicator columns
together with the scenario columns smsp and tmsr (missing when the scenario
merge found no match) and the target column being filled in. -/

structure PactaRow where
  company_id : ℕ
  sector : String
  technology : String
  plant_location : String
  region : String
  year : ℤ
  production : ℚ
  smsp : Option ℚ
  tmsr : Option ℚ
  target : Option ℚ
deriving DecidableEq, Repr

/-- Sum of the production column over a list of rows. -/
def prodSum (l : List PactaRow) : ℚ := (l.map PactaRow.production).sum

/-- Embedding of the first merge of _calculate_tms: the scenario-year rows
grouped by (company_id, sector, region) with production summed, then
left-merged back; a missing group yields a missing (NaN) cell. -/
def iniTotalLookup (df : List PactaRow) (sy : ℤ) (c : ℕ) (s r : String) : Option ℚ :=
  let g := df.filter fun x =>
    x.year == sy && x.company_id == c && x.sector == s && x.region == r
  if g.isEmpty then none else some (prodSum g)

/-- Embedding of the second merge of _calculate_tms: the scenario-year rows of
one technology grouped by (company_id, sector, region) with production summed,
then left-merged back. -/
def iniTechLookup (df : List PactaRow) (sy : ℤ) (c : ℕ) (s r t : String) : Option ℚ :=
  let g := df.filter fun x =>
    x.year == sy && x.technology == t && x.company_id == c && x.sector == s && x.region == r
  if g.isEmpty then none else some (prodSum g)

/-- Embedding of the merge of the technology-level loop of _calculate_tms:
the scenario-year rows grouped by (company_id, plant_location, technology,
sector, region) with production summed, then left-merged back. -/
def iniLocTechLookup (df : List PactaRow) (sy : ℤ) (c : ℕ) (pl s t r : String) : Option ℚ :=
  let g := df.filter fun x =>
    x.year == sy && x.company_id == c && x.plant_location == pl
      && x.technology == t && x.sector == s && x.region == r
  if g.isEmpty then none else some (prodSum g)

/-- The per-sector configuration from settings, sectoral_approach key:
the sector-level and technology-level technology lists together with the
build-out, phase-out and other classification lists. -/
structure SectorSettings where
  sector : List String
  technology : List String
  build_out : List String
  phase_out : List String
  other : List String
deriving DecidableEq, Repr

/-- One iteration of the sector-level loop of _calculate_tms: the rows of
the given technology and sector receive target = production_ini_total * smsp
+ production_ini, with NaN propagating from any missing operand. -/
def tms_sector_step (sector : String) (sy : ℤ) (df : List PactaRow) (tech : String) :
    List PactaRow :=
  df.map fun row =>
    if row.technology == tech && row.sector == sector then
      { row with target :=
          match iniTotalLookup df sy row.company_id row.sector row.region, row.smsp,
                iniTechLookup df sy row.company_id row.sector row.region tech with
          | some tot, some sm, some ini => some (tot * sm + ini)
          | _, _, _ => none }
    else row

/-- One iteration of the technology-level loop of _calculate_tms: the rows of
the given technology and sector receive target = production_ini * tmsr. -/
def tms_tech_step (sector : String) (sy : ℤ) (df : List PactaRow) (tech : String) :
    List PactaRow :=
  df.map fun row =>
    if row.technology == tech && row.sector == sector then
      { row with target :=
          match iniLocTechLookup df sy row.company_id row.plant_location
                  row.sector row.technology row.region, row.tmsr with
          | some ini, some tm => some (ini * tm)
          | _, _ => none }
    else row

/-- Embedding of _calculate_tms: the sector-level loop over the technologies
of the sector list of the settings, followed by the technology-level loop over
the technologies of the technology list. -/
def calculate_tms (df : List PactaRow) (sector : String) (cfg : SectorSettings)
    (sy : ℤ) : List PactaRow :=
  cfg.technology.foldl (tms_tech_step sector sy)
    (cfg.sector.foldl (tms_sector_step sector sy) df)

/-- The fields of a PactaRow other than target; the TMS steps only write the
target column, so this projection is invariant under them. -/
structure PRowCore where
  company_id : ℕ
  sector : String
  technology : String
  plant_location : String
  region : String
  year : ℤ
  production : ℚ
  smsp : Option ℚ
  tmsr : Option ℚ
deriving DecidableEq, Repr

/-- Projection of a PactaRow to every field except target. -/
def PactaRow.core (r : PactaRow) : PRowCore :=
  ⟨r.company_id, r.sector, r.technology, r.plant_location, r.region, r.year,
    r.production, r.smsp, r.tmsr⟩

/-- The first merge lookup of _calculate_tms expressed over the target-free
projection of the frame. -/
def iniTotalLookupC (cs : List PRowCore) (sy : ℤ) (c : ℕ) (s r : String) : Option ℚ :=
  let g := cs.filter fun x =>
    x.year == sy && x.company_id == c && x.sector == s && x.region == r
  if g.isEmpty then none else some ((g.map PRowCore.production).sum)

/-- The second merge lookup of _calculate_tms over the target-free
projection. -/
def iniTechLookupC (cs : List PRowCore) (sy : ℤ) (c : ℕ) (s r t : String) : Option ℚ :=
  let g := cs.filter fun x =>
    x.year == sy && x.technology == t && x.company_id == c && x.sector == s && x.region == r
  if g.isEmpty then none else some ((g.map PRowCore.production).sum)

/-- The technology-level merge lookup of _calculate_tms over the target-free
projection. -/
def iniLocTechLookupC (cs : List PRowCore) (sy : ℤ) (c : ℕ) (pl s t r : String) :
    Option ℚ :=
  let g := cs.filter fun x =>
    x.year == sy && x.company_id == c && x.plant_location == pl
      && x.technology == t && x.sector == s && x.region == r
  if g.isEmpty then none else some ((g.map PRowCore.production).sum)

/-- The target value the sector-level TMS loop assigns to a matching row:
the company's sector-region production total at the scenario year times smsp
plus the company's production in the row's technology at the scenario year,
missing when any operand is missing. -/
def targetSectorVal (df : List PactaRow) (sy : ℤ) (r : PactaRow) : Option ℚ :=
  match iniTotalLookup df sy r.company_id r.sector r.region, r.smsp,
        iniTechLookup df sy r.company_id r.sector r.region r.technology with
  | some tot, some sm, some ini => some (tot * sm + ini)
  | _, _, _ => none

/-- The target value the technology-level TMS loop assigns to a matching
row: the company's production in the exact (plant_location, technology,
region) combination at the scenario year times tmsr. -/
def targetTechVal (df : List PactaRow) (sy : ℤ) (r : PactaRow) : Option ℚ :=
  match iniLocTechLookup df sy r.company_id r.plant_location r.sector
          r.technology r.region, r.tmsr with
  | some ini, some tm => some (ini * tm)
  | _, _ => none

/-! ## Loan/Ownership Consolidator: _get_parent_companies -/

/-- A row of the company-ownership table of one vintage year. -/
structure ORow where
  company_id : ℕ
  parent_company_id : ℕ
  is_parent : Bool
  is_ultimate_listed_parent : Bool
  is_ultimate_parent : Bool
  ownership_level : ℤ
deriving DecidableEq, Repr

/-- Ascending comparison on the ownership level, the sort key used by
_get_parent_companies when lowest_level is true. -/
def levelAsc (a b : ORow) : Prop := a.ownership_level ≤ b.ownership_level

/-- Descending comparison on the ownership level. -/
def levelDesc (a b : ORow) : Prop := b.ownership_level ≤ a.ownership_level

instance : DecidableRel levelAsc := fun a b =>
  inferInstanceAs (Decidable (a.ownership_level ≤ b.ownership_level))

instance : DecidableRel levelDesc := fun a b =>
  inferInstanceAs (Decidable (b.ownership_level ≤ a.ownership_level))

instance : IsTotal ORow levelAsc := ⟨fun a b => le_total a.ownership_level b.ownership_level⟩

instance : IsTotal ORow levelDesc := ⟨fun a b => le_total b.ownership_level a.ownership_level⟩

instance : IsTrans ORow levelAsc := ⟨fun _ _ _ h h2 => le_trans h h2⟩

instance : IsTrans ORow levelDesc := ⟨fun _ _ _ h h2 => le_trans h2 h⟩

/-- The filter applied to the ownership table before selecting parents:
with stop_at_weak_parents the Is Parent rows, otherwise the Is Parent rows
that are also ultimate listed parents or ultimate parents. -/
def qualifies (stop_at_weak_parents : Bool) (r : ORow) : Bool :=
  if stop_at_weak_parents then r.is_parent
  else r.is_parent && (r.is_ultimate_listed_parent || r.is_ultimate_parent)

/-- Embedding of groupby on Company ID followed by first on the Parent
Company ID column: the first row of the list carrying the given company id. -/
def firstFor (l : List ORow) (c : ℕ) : Option ORow :=
  (l.filter (fun r => r.company_id == c)).head?

/-- The distinct company ids of a list of ownership rows, in order of first
appearance. -/
def keysOf (l : List ORow) : List ℕ := (l.map ORow.company_id).dedup

/-- Embedding of _get_parent_companies: the qualifying rows sorted by
ownership level (ascending when lowest_level) give one parent per company via
groupby-first; the companies without qualifying rows fall back to all their
ownership rows sorted by ownership level descending, again via groupby-first;
the two maps are concatenated. -/
def get_parent_companies (stop_at_weak_parents : Bool) (tbl : List ORow)
    (lowest_level : Bool) : List (ℕ × ℕ) :=
  let quald := tbl.filter (qualifies stop_at_weak_parents)
  let sorted :=
    if lowest_level then List.insertionSort levelAsc quald
    else List.insertionSort levelDesc quald
  let parents := (keysOf sorted).filterMap fun c =>
    (firstFor sorted c).map fun r => (c, r.parent_company_id)
  let rest := tbl.filter fun r => !((keysOf sorted).contains r.company_id)
  let restSorted := List.insertionSort levelDesc rest
  let others := (keysOf restSorted).filterMap fun c =>
    (firstFor restSorted c).map fun r => (c, r.parent_company_id)
  parents ++ others

/-- The qualifying rows sorted by ascending ownership level, the table from
which _get_parent_companies (with lowest_level) picks each company's parent. -/
def qualSorted (stop_at_weak_parents : Bool) (tbl : List ORow) : List ORow :=
  List.insertionSort levelAsc (tbl.filter (qualifies stop_at_weak_parents))

/-- The rows of the companies with no qualifying record, the fallback table
of _get_parent_companies. -/
def restRows (stop_at_weak_parents : Bool) (tbl : List ORow) : List ORow :=
  tbl.filter fun x =>
    !((keysOf (qualSorted stop_at_weak_parents tbl)).contains x.company_id)

/-- The fallback rows sorted by descending ownership level. -/
def restSorted (stop_at_weak_parents : Bool) (tbl : List ORow) : List ORow :=
  List.insertionSort levelDesc (restRows stop_at_weak_parents tbl)

/-! ## Eligibility Filter: _apply_production_thresholds -/

/-- A row of the combined loan table as read by the threshold filter: the
grouping key columns together with production and the two balance-sheet
columns, whose cells can be missing. -/
structure LRow where
  company_id : ℕ
  sector : String
  technology : String
  region : String
  year : ℤ
  production : ℚ
  total_assets : Option ℚ
  turnover : Option ℚ
deriving DecidableEq, Repr

/-- The combined loan table together with flags recording whether the
turnover and total_assets columns are present at all. -/
structure LoanTable where
  has_turnover : Bool
  has_total_assets : Bool
  rows : List LRow
deriving DecidableEq, Repr

/-- The five-column grouping key of the first groupby of
_apply_production_thresholds. -/
def lkey5 (r : LRow) : String × String × ℤ × ℕ × String :=
  (r.technology, r.region, r.year, r.company_id, r.sector)

/-- First non-missing value of a list of optional cells, as pandas
groupby first returns per column. -/
def firstSome (xs : List (Option ℚ)) : Option ℚ := (xs.filterMap id).head?

/-- Mean of the non-missing cells, as pandas mean with skipna computes;
missing when every cell is missing. -/
def qmean (xs : List (Option ℚ)) : Option ℚ :=
  let v := xs.filterMap id
  if v.isEmpty then none else some (v.sum / v.length)

/-- Embedding of the first groupby of _apply_production_thresholds: one row
per distinct (technology, region, year, company_id, sector) key, carrying the
first non-missing cell of each column within the group. -/
def groupFirst5 (l : List LRow) : List LRow :=
  ((l.map lkey5).dedup).filterMap fun k =>
    match l.filter (fun r => lkey5 r == k) with
    | [] => none
    | g@(r0 :: _) => some { r0 with
        total_assets := firstSome (g.map LRow.total_assets),
        turnover := firstSome (g.map LRow.turnover) }

/-- The per-company-sector aggregate produced by the second groupby of
_apply_production_thresholds: mean total assets, mean turnover and summed
production. -/
structure CompAgg where
  company_id : ℕ
  sector : String
  total_assets : Option ℚ
  turnover : Option ℚ
  production : ℚ
deriving DecidableEq, Repr

/-- Embedding of the second groupby of _apply_production_thresholds, grouping
the deduplicated rows by (company_id, sector) and aggregating total_assets
and turnover by mean and production by sum. -/
def companyAggs (l : List LRow) : List CompAgg :=
  let d := groupFirst5 l
  ((d.map (fun r => (r.company_id, r.sector))).dedup).map fun k =>
    let g := d.filter fun r => (r.company_id, r.sector) == k
    { company_id := k.1, sector := k.2,
      total_assets := qmean (g.map LRow.total_assets),
      turnover := qmean (g.map LRow.turnover),
      production := (g.map LRow.production).sum }

/-- The asset ratio column: production divided by mean total assets, with
NaN when the denominator is missing and a signed infinity when it is zero. -/
def assetRatio (a : CompAgg) : Flt := Flt.div (Flt.fin a.production) (ofOpt a.total_assets)

/-- The turnover ratio column. -/
def turnoverRatio (a : CompAgg) : Flt := Flt.div (Flt.fin a.production) (ofOpt a.turnover)

/-- The test selecting the company-sector aggregates whose two ratio cells
are both NaN. -/
def bothRatiosNaN (a : CompAgg) : Bool :=
  (assetRatio a == Flt.nan) && (turnoverRatio a == Flt.nan)

/-- A production_thresholds settings entry for a sector. -/
structure Threshold where
  sector : String
  asset_ratio : ℚ
  turnover_ratio : ℚ
deriving DecidableEq, Repr

/-- Embedding of the eligible_companies set of _apply_production_thresholds:
the companies whose aggregates have both ratios missing, extended, for each
configured sector threshold, with the companies of that sector whose asset
ratio or turnover ratio strictly exceeds the configured value. -/
def eligibleCompanies (thresholds : List Threshold) (comps : List CompAgg) : List ℕ :=
  let base := (comps.filter bothRatiosNaN).map CompAgg.company_id
  thresholds.foldl (fun acc t =>
    acc
      ++ (comps.filter fun a =>
            a.sector == t.sector && Flt.gtq (assetRatio a) t.asset_ratio).map
          CompAgg.company_id
      ++ (comps.filter fun a =>
            a.sector == t.sector && Flt.gtq (turnoverRatio a) t.turnover_ratio).map
          CompAgg.company_id) base

/-- Embedding of _apply_production_thresholds: when both the turnover and the
total_assets columns are present, keep the rows whose company_id is in the
eligible set; otherwise return the table unchanged. -/
def apply_production_thresholds (thresholds : List Threshold) (tbl : LoanTable) :
    LoanTable :=
  if tbl.has_turnover && tbl.has_total_assets then
    { tbl with rows :=
        tbl.rows.filter fun r =>
          (eligibleCompanies thresholds (companyAggs tbl.rows)).contains r.company_id }
  else tbl

/-- Modelled from the spec ("A company-sector is eligible if EITHER ratio
exceeds the sector's configured threshold, OR both ratios are undefined"):
the eligibility of one company-sector pair as the specification words it,
used to compare the specified filter with the implemented one. -/
def spec_eligible_pair (thresholds : List Threshold) (comps : List CompAgg)
    (c : ℕ) (s : String) : Bool :=
  comps.any fun a =>
    a.company_id == c && a.sector == s
      && (bothRatiosNaN a
          || thresholds.any fun t =>
               t.sector == s
                 && (Flt.gtq (assetRatio a) t.asset_ratio
                     || Flt.gtq (turnoverRatio a) t.turnover_ratio))

/-! ## Cached company-indicator tables and the Normaliser -/

/-- A row of a cached per-year company-indicator table
(_pacta_company_indicators).  The region column is absent until _add_region
writes it, which the optional region field records. -/
structure CIRow where
  company_id : ℕ
  sector : String
  technology : String
  plant_location : String
  year : ℤ
  production : ℚ
  emission_factor : ℚ
  region : Option String
deriving DecidableEq, Repr

/-- Sum of the production column over a list of company-indicator rows. -/
def ciProdSum (l : List CIRow) : ℚ := (l.map CIRow.production).sum

/-- A row of the combined loan-climate table as read by the normalisation
methods: the company, sector and portfolio keys together with the year, the
production and the loan-indicator columns. -/
structure CRow where
  company_id : ℕ
  sector : String
  portfolio_id : String
  year : ℤ
  production : ℚ
  loan : ℚ
deriving DecidableEq, Repr

/-- Sum of the production column over a list of combined rows. -/
def cProdSum (l : List CRow) : ℚ := (l.map CRow.production).sum

/-- Embedding of _global_normalisation: the cached indicator rows of the year
restricted to parent companies are summed per sector, and the combined table
is inner-merged with those sums on sector, the sum becoming the norm column.
Rows whose sector has no entry in the sums are dropped by the inner merge. -/
def global_normalisation (cached : List CIRow) (ownership : List ORow)
    (df : List CRow) : List (CRow × ℚ) :=
  let parents := (get_parent_companies false ownership true).map Prod.snd
  let dft := cached.filter fun r => parents.contains r.company_id
  let keys := (dft.map CIRow.sector).dedup
  df.filterMap fun r =>
    if keys.contains r.sector then
      some (r, ciProdSum (dft.filter fun x => x.sector == r.sector))
    else none

/-- Embedding of _economic_normalisation: as the global normalisation, the
per-sector sums being scaled by the configured economic weight of the sector
(sectors without a configured weight keep their plain sum). -/
def economic_normalisation (cached : List CIRow) (ownership : List ORow)
    (weights : List (String × ℚ)) (df : List CRow) : List (CRow × ℚ) :=
  let parents := (get_parent_companies false ownership true).map Prod.snd
  let dft := cached.filter fun r => parents.contains r.company_id
  let keys := (dft.map CIRow.sector).dedup
  let weightOf : String → ℚ := fun s =>
    (weights.filterMap fun w => if w.1 == s then some w.2 else none).foldl
      (fun acc w => acc * w) 1
  df.filterMap fun r =>
    if keys.contains r.sector then
      some (r, weightOf r.sector * ciProdSum (dft.filter fun x => x.sector == r.sector))
    else none

/-- Embedding of _total_normalisation: the combined rows of the given year
with a positive loan indicator are summed per sector, and the combined table
is inner-merged with those sums on sector. -/
def total_normalisation (df : List CRow) (year : ℤ) : List (CRow × ℚ) :=
  let src := df.filter fun r => r.year == year && decide (0 < r.loan)
  let keys := (src.map CRow.sector).dedup
  df.filterMap fun r =>
    if keys.contains r.sector then
      some (r, cProdSum (src.filter fun x => x.sector == r.sector))
    else none

/-- Embedding of _portfolio_normalisation: as the total normalisation with
the per-sector sums computed per (sector, portfolio_id) pair. -/
def portfolio_normalisation (df : List CRow) (year : ℤ) : List (CRow × ℚ) :=
  let src := df.filter fun r => r.year == year && decide (0 < r.loan)
  let keys := (src.map fun r => (r.sector, r.portfolio_id)).dedup
  df.filterMap fun r =>
    if keys.contains (r.sector, r.portfolio_id) then
      some (r, cProdSum (src.filter fun x =>
        x.sector == r.sector && x.portfolio_id == r.portfolio_id))
    else none

/-- Embedding of _company_normalisation: the combined rows are summed per
(sector, company_id) pair over the whole combined table itself and merged
back on that pair. -/
def company_normalisation (df : List CRow) : List (CRow × ℚ) :=
  let keys := (df.map fun r => (r.sector, r.company_id)).dedup
  df.filterMap fun r =>
    if keys.contains (r.sector, r.company_id) then
      some (r, cProdSum (df.filter fun x =>
        x.sector == r.sector && x.company_id == r.company_id))
    else none

/-- Embedding of _normalise_production: dispatch on the method name, any
unrecognised name assigning norm = 1 to every row. -/
def normalise_production (method : String) (cached : List CIRow)
    (ownership : List ORow) (weights : List (String × ℚ)) (df : List CRow)
    (year : ℤ) : List (CRow × ℚ) :=
  if method == "global" then global_normalisation cached ownership df
  else if method == "economic" then economic_normalisation cached ownership weights df
  else if method == "total" then total_normalisation df year
  else if method == "portfolio" then portfolio_normalisation df year
  else if method == "company" then company_normalisation df
  else df.map fun r => (r, 1)

/-! ## Calculator state: the cached tables and _add_region -/

/-- The calculator state relevant to the caching claims: the per-year cached
company-indicator tables and the per-year computed climate tables.  The
payload of the computed tables is abstract, as the frame claims do not depend
on its shape. -/
structure ACState (α : Type) where
  pacta_company_indicators : List (ℤ × List CIRow)
  df_pacta : List (ℤ × α)
deriving Repr

/-- Lookup of the cached company-indicator table of one year. -/
def cacheLookup {α : Type} (s : ACState α) (year : ℤ) : Option (List CIRow) :=
  (s.pacta_company_indicators.filter fun p => p.1 == year).head?.map Prod.snd

/-- Embedding of the body of _add_region on one cached table: the region
column is first set to global on every row, then, for each sector of the
mapping and each of its regions, the rows of that sector whose plant location
is among the listed countries receive that region. -/
def add_region_table (mapping : Option (List (String × List (String × List String))))
    (rows : List CIRow) : List CIRow :=
  let base := rows.map fun r => { r with region := some "global" }
  match mapping with
  | none => base
  | some m =>
      m.foldl (fun acc sm =>
        sm.2.foldl (fun acc2 rc =>
          acc2.map fun r =>
            if r.sector == sm.1 && rc.2.contains r.plant_location then
              { r with region := some rc.1 }
            else r) acc) base

/-- Embedding of _add_region: the cached company-indicator table of the given
year is updated in place by add_region_table; every other cached table is
untouched. -/
def add_region {α : Type} (year : ℤ)
    (mapping : Option (List (String × List (String × List String))))
    (s : ACState α) : ACState α :=
  { s with pacta_company_indicators :=
      s.pacta_company_indicators.map fun p =>
        if p.1 == year then (p.1, add_region_table mapping p.2) else p }

/-- Replacement or insertion of the computed climate table of one year. -/
def setPacta {α : Type} (tbl : List (ℤ × α)) (year : ℤ) (v : α) : List (ℤ × α) :=
  if tbl.any fun p => p.1 == year then
    tbl.map fun p => if p.1 == year then (p.1, v) else p
  else tbl ++ [(year, v)]

/-- Embedding of the state effect of _calculate_pacta: _add_region mutates
the cached table of the year, then the remaining computation runs on a copy
of that cached table (the pure function f standing for the scenario merge,
the TMS and SDA target assignment and the SDA rescaling applied to the copy)
and its result is stored in the computed-table cache. -/
def calculate_pacta {α : Type} (year : ℤ)
    (mapping : Option (List (String × List (String × List String))))
    (f : List CIRow → α) (s : ACState α) : ACState α :=
  let s1 := add_region year mapping s
  { s1 with df_pacta := setPacta s1.df_pacta year (f ((cacheLookup s1 year).getD [])) }

/-- Erasure of the region column of a cached row: the cached tables are
unchanged by _calculate_pacta up to this projection. -/
def eraseRegion (r : CIRow) : CIRow := { r with region := none }

/-! ## Alignment Aggregator: _make_weighted_target and _aggregate_results -/

/-- A row of year_results inside _calculate_alignment_instance: the sector
and technology classification keys together with the numeric columns read by
the sign flip, the weighting and the end-year target merge. -/
structure ARow where
  sector : String
  technology : String
  year : ℤ
  end_year : ℤ
  production : Flt
  target : Flt
  deviation : Flt
  loan : Flt
deriving DecidableEq, Repr

/-- Embedding of the deviation assignment of _calculate_alignment_instance:
deviation = production - target on every row. -/
def mk_deviation (data : List ARow) : List ARow :=
  data.map fun r => { r with deviation := Flt.sub r.production r.target }

/-- Embedding of the sign-flip loop of _make_weighted_target: for every
sector of the sectoral approach settings and every technology of its
phase_out and other lists, the deviation of the matching rows is multiplied
by minus one. -/
def flip_deviations (cfg : List (String × SectorSettings)) (data : List ARow) :
    List ARow :=
  cfg.foldl (fun acc sc =>
    (sc.2.phase_out ++ sc.2.other).foldl (fun acc2 tech =>
      acc2.map fun r =>
        if r.technology == tech && r.sector == sc.1 then
          { r with deviation := Flt.neg r.deviation }
        else r) acc) data

/-- The number of occurrences of the (sector, technology) pair of a row in
the phase_out and other lists of the settings; each occurrence negates the
deviation once. -/
def flipOcc (cfg : List (String × SectorSettings)) (r : ARow) : ℕ :=
  (cfg.map fun sc =>
    if r.sector == sc.1 then
      ((sc.2.phase_out ++ sc.2.other).filter fun t => r.technology == t).length
    else 0).sum

/-- Iterated negation: the effect of n sign-flip passes on a deviation. -/
def negIter : ℕ → Flt → Flt
  | 0, x => x
  | n + 1, x => Flt.neg (negIter n x)

/-- Embedding of the end-year target lookup of _make_weighted_target: the
rows whose end_year column equals the given end year, grouped by the merge
key, with the first non-NaN target per group; a missing group or an all-NaN
group yields NaN, as the left merge does. -/
def targetEnd {κ : Type} [DecidableEq κ] (d : List ARow) (key : ARow → κ)
    (ey : ℤ) (k : κ) : Flt :=
  match (((d.filter fun r => r.end_year == ey && decide (key r = k)).map
      ARow.target).filter fun t => t ≠ Flt.nan).head? with
  | some t => t
  | none => Flt.nan

/-- Embedding of _make_weighted_target: after the sign flip, every row
receives weighted_deviation = deviation * loan indicator and
weighted_target = target_end * loan indicator, target_end being the per-key
end-year target lookup over the flipped data. -/
def make_weighted_target {κ : Type} [DecidableEq κ]
    (cfg : List (String × SectorSettings)) (data : List ARow)
    (key : ARow → κ) (ey : ℤ) : List (ARow × Flt × Flt) :=
  let d := flip_deviations cfg data
  d.map fun r =>
    (r, Flt.mul r.deviation r.loan, Flt.mul (targetEnd d key ey (key r)) r.loan)

/-- A row as read by _aggregate_results: the tuple of the grouping columns
(abstracted into one key value) together with the loan indicator, the
weighted deviation and the weighted target. -/
structure AggRow (κ : Type) where
  key : κ
  loan : Flt
  wd : Flt
  wt : Flt
deriving Repr

/-- Embedding of _aggregate_results: the loan indicator, the weighted
deviation and the weighted target are summed per grouping key, and the score
is the summed weighted deviation divided by the summed weighted target,
clipped to the interval from minus limit to limit. -/
def aggregate_results {κ : Type} [DecidableEq κ] (data : List (AggRow κ))
    (limit : ℚ) : List (κ × Flt × Flt × Flt × Flt) :=
  ((data.map AggRow.key).dedup).map fun k =>
    let g := data.filter fun r => decide (r.key = k)
    let sL := Flt.psum (g.map AggRow.loan)
    let sD := Flt.psum (g.map AggRow.wd)
    let sT := Flt.psum (g.map AggRow.wt)
    (k, sL, sD, sT, Flt.clip (Flt.div sD sT) (-limit) limit)

/-- Embedding of the row-building part of _calculate_alignment_instance: the
end_year column is first set to the row's own year, the deviation is
computed, _make_weighted_target runs with the company-level merge key, the
rows are restricted to the end year (the case in which year is not a
requested facet) and the grouping key of _aggregate_results is attached. -/
def alignment_rows {κ₁ κ₂ : Type} [DecidableEq κ₁] [DecidableEq κ₂]
    (cfg : List (String × SectorSettings)) (data : List ARow)
    (ckey : ARow → κ₁) (rkey : ARow → κ₂) (ey : ℤ) : List (AggRow κ₂) :=
  let d0 := data.map fun r => { r with end_year := r.year }
  let w := make_weighted_target cfg (mk_deviation d0) ckey ey
  (w.filter fun t => t.1.year == ey).map fun t =>
    { key := rkey t.1, loan := t.1.loan, wd := t.2.1, wt := t.2.2 }

/-! ## Sector/Technology Split: _split_over_technology -/

/-- A row of the combined table as read by _split_over_technology: the six
grouping columns together with the technology, the production and target
cells (possibly missing) and the loan indicator. -/
structure SRow where
  sector : String
  year : ℤ
  portfolio_id : String
  company_id : ℕ
  loan_id : ℕ
  portfolio_date : ℤ
  technology : String
  production : Option ℚ
  target : Option ℚ
  loan : ℚ
deriving DecidableEq, Repr

/-- The grouping key of _split_over_technology. -/
def skey (r : SRow) : String × ℤ × String × ℕ × ℕ × ℤ :=
  (r.sector, r.year, r.portfolio_id, r.company_id, r.loan_id, r.portfolio_date)

/-- The production_plus_target column: missing target and production cells
count as zero and one ten-thousandth is added. -/
def ppt (r : SRow) : ℚ := r.target.getD 0 + r.production.getD 0 + 1 / 10000

/-- Embedding of _split_over_technology: every row's loan indicator is
multiplied by the ratio of its production_plus_target value to the sum of
that value over the rows sharing its grouping key (the groupby sum merged
back on the unique group keys). -/
def split_over_technology (data : List SRow) : List SRow :=
  data.map fun r =>
    let s := ((data.filter fun x => skey x == skey r).map ppt).sum
    { r with loan := r.loan * (ppt r / s) }

/-! ## Time-Series Shift Decomposer: _aggregate_over_time_results -/

/-- A row of the per-portfolio frame inside _aggregate_over_time_results:
the three vintage keys, the end year and the score of the alignment run. -/
structure TRow where
  scenario_year : ℤ
  data_year : ℤ
  portfolio_date : ℤ
  end_year : ℤ
  score : Flt
deriving DecidableEq, Repr

/-- Lexicographic sort order on (scenario_year, data_year, portfolio_date),
the sort key of _aggregate_over_time_results. -/
def tLe (a b : TRow) : Prop :=
  a.scenario_year < b.scenario_year
    ∨ (a.scenario_year = b.scenario_year
        ∧ (a.data_year < b.data_year
            ∨ (a.data_year = b.data_year ∧ a.portfolio_date ≤ b.portfolio_date)))

instance : DecidableRel tLe := fun a b => by
  unfold tLe; infer_instance

instance : IsTotal TRow tLe := ⟨by
  intro a b
  unfold tLe
  omega⟩

instance : IsTrans TRow tLe := ⟨by
  intro a b c
  unfold tLe
  omega⟩

/-- The sort step of _aggregate_over_time_results. -/
def over_time_sort (l : List TRow) : List TRow := List.insertionSort tLe l

/-- The true_lines column: a row is an anchor when its scenario year equals
its end year minus five, its data year, and the year part of its portfolio
date (portfolio dates are positive, so integer division by one hundred is
the year part). -/
def true_line (r : TRow) : Bool :=
  r.scenario_year == r.end_year - 5
    && r.scenario_year == r.data_year
    && r.scenario_year == r.portfolio_date / 100

/-- The anchor mask of a sorted per-portfolio frame. -/
def anchors (l : List TRow) : List Bool := l.map true_line

/-- Whether position j of the frame is an anchor row; positions outside the
frame count as False, as the fillna after the shift does. -/
def anchorAt (l : List TRow) (j : ℕ) : Bool := (anchors l).getD j false

/-- One labelling pass of _aggregate_over_time_results: the positions at
which the anchor mask shifted up by the offset is True receive the label,
every other position keeps its previous metric value. -/
def metric_pass (mask : List Bool) (off : ℕ) (label : String)
    (ms : List String) : List String :=
  (List.range ms.length).map fun i =>
    if mask.getD (i + off) false then label else ms.getD i ""

/-- Embedding of the three metric assignments of
_aggregate_over_time_results, in source order: the decarbonisation label at
the anchor mask itself, then the portfolio label at the mask shifted up by
one, then the counterparty label at the mask shifted up by two, each pass
overwriting the previous one where its mask is True. -/
def over_time_metrics (l : List TRow) : List String :=
  let a := anchors l
  metric_pass a 2 "counterparty_shift"
    (metric_pass a 1 "portfolio_shift"
      (metric_pass a 0 "decarbonisation_shift" (List.replicate l.length "")))

/-- The score of the row at one position of the frame. -/
def scoreAt (l : List TRow) (i : ℕ) : Flt := ((l.get? i).map TRow.score).getD Flt.nan

/-- The successive-difference column of the sorted frame: NaN at the first
position, the difference of consecutive scores elsewhere. -/
def over_time_differences (l : List TRow) : List Flt :=
  (List.range l.length).map fun i =>
    match i with
    | 0 => Flt.nan
    | j + 1 => Flt.sub (scoreAt l (j + 1)) (scoreAt l j)

/-- The data year of the row at one position of the frame. -/
def dataYearAt (l : List TRow) (i : ℕ) : ℤ := ((l.get? i).map TRow.data_year).getD 0

/-- Mean of a list of float values, NaN on the empty list, as the pivot table
aggregates the differences of one (data year, metric) cell. -/
def fmean (xs : List Flt) : Flt :=
  if xs.isEmpty then Flt.nan else Flt.div (Flt.psum xs) (Flt.fin xs.length)

/-- One cell of the pivot table of _aggregate_over_time_results: the mean of
the non-NaN differences at the positions carrying the given metric label and
data year (the dropna step removes the NaN differences before pivoting). -/
def pivot_mean (l : List TRow) (label : String) (dy : ℤ) : Flt :=
  fmean (((List.range l.length).filter fun i =>
    ((over_time_metrics l).getD i "" == label)
      && (dataYearAt l i == dy)
      && ((over_time_differences l).getD i Flt.nan ≠ Flt.nan)).map
    fun i => (over_time_differences l).getD i Flt.nan)

/-- The total_shift column: the sum of the three pivoted shift cells of one
data year. -/
def total_shift (l : List TRow) (dy : ℤ) : Flt :=
  Flt.add
    (Flt.add (pivot_mean l "decarbonisation_shift" dy) (pivot_mean l "portfolio_shift" dy))
    (pivot_mean l "counterparty_shift" dy)

/-! ## Theorems -/

theorem sum_pos_of_mem {l : List ℚ} (h : ∀ x ∈ l, 0 < x) (hne : l ≠ []) : 0 < l.sum :=
  List.sum_pos l h hne

/-- C10: within every group of rows sharing the technology-split key in which
every row carries the same loan indicator L and production and target are
nonnegative where present, the shares computed by _split_over_technology sum
to one over the group, and the post-split loan indicators of the group sum
back to L. -/
theorem C10_technology_split_conserves_exposure
    (data : List SRow) (k : String × ℤ × String × ℕ × ℕ × ℤ) (L : ℚ)
    (hL : ∀ r ∈ data, skey r = k → r.loan = L)
    (hne : ∃ r ∈ data, skey r = k)
    (hpos : ∀ r ∈ data, skey r = k → 0 ≤ r.target.getD 0 + r.production.getD 0) :
    (((data.filter fun r => skey r == k).map fun r =>
        ppt r / ((data.filter fun x => skey x == skey r).map ppt).sum).sum = 1)
    ∧ ((((split_over_technology data).filter fun r => skey r == k).map SRow.loan).sum
        = L) := by
  classical
  set g := data.filter fun r => skey r == k with hg
  have hmemg : ∀ r ∈ g, r ∈ data ∧ skey r = k := by
    intro r hr
    rw [hg, List.mem_filter] at hr
    exact ⟨hr.1, by simpa using hr.2⟩
  set S : ℚ := (g.map ppt).sum with hS
  have hinner : ∀ r ∈ g, ((data.filter fun x => skey x == skey r).map ppt).sum = S := by
    intro r hr
    have hk : skey r = k := (hmemg r hr).2
    rw [hS, hg, hk]
  have hpptpos : ∀ x ∈ g.map ppt, 0 < x := by
    intro x hx
    rcases List.mem_map.mp hx with ⟨r, hr, hrx⟩
    have h0 : 0 ≤ r.target.getD 0 + r.production.getD 0 :=
      hpos r (hmemg r hr).1 (hmemg r hr).2
    have hp : 0 < ppt r := by unfold ppt; linarith
    exact hrx ▸ hp
  have hgne : g ≠ [] := by
    rcases hne with ⟨r, hr, hk⟩
    have hrg : r ∈ g := by
      rw [hg, List.mem_filter]
      exact ⟨hr, by simpa using hk⟩
    intro hnil
    rw [hnil] at hrg
    exact (List.not_mem_nil r) hrg
  have hmapne : g.map ppt ≠ [] := by
    intro h
    exact hgne (List.map_eq_nil_iff.mp h)
  have hSpos : 0 < S := by
    rw [hS]; exact List.sum_pos _ hpptpos hmapne
  have hSne : S ≠ 0 := ne_of_gt hSpos
  constructor
  · have h1 : (g.map fun r =>
        ppt r / ((data.filter fun x => skey x == skey r).map ppt).sum)
        = g.map fun r => ppt r * (1 / S) := by
      apply List.map_congr_left
      intro r hr
      rw [hinner r hr]
      field_simp
    rw [h1, List.sum_map_mul_right, ← hS]
    field_simp
  · have hcomm : (split_over_technology data).filter (fun r => skey r == k)
        = g.map fun r =>
            { r with loan :=
                r.loan * (ppt r / ((data.filter fun x => skey x == skey r).map ppt).sum) } := by
      rw [hg]
      exact List.filter_map _ data
    rw [hcomm, List.map_map]
    have h2 : g.map (SRow.loan ∘ fun r =>
        { r with loan :=
            r.loan * (ppt r / ((data.filter fun x => skey x == skey r).map ppt).sum) })
        = g.map fun r => ppt r * (L / S) := by
      apply List.map_congr_left
      intro r hr
      have hLr : r.loan = L := hL r (hmemg r hr).1 (hmemg r hr).2
      show r.loan * (ppt r / ((data.filter fun x => skey x == skey r).map ppt).sum)
        = ppt r * (L / S)
      rw [hinner r hr, hLr]
      ring
    rw [h2, List.sum_map_mul_right, ← hS]
    field_simp

/-- Witness for C10 at a concrete two-row group: both rows share the group
key and carry loan 5; the shares sum to one and the split loans sum to 5. -/
theorem C10_witness :
    ((([⟨"s", 2023, "p", 1, 1, 202312, "coal", some 10, some 20, 5⟩,
        ⟨"s", 2023, "p", 1, 1, 202312, "gas", some 30, none, 5⟩] : List SRow).filter
          fun r => skey r == ("s", 2023, "p", 1, 1, 202312)).map fun r =>
        ppt r / ((([⟨"s", 2023, "p", 1, 1, 202312, "coal", some 10, some 20, 5⟩,
          ⟨"s", 2023, "p", 1, 1, 202312, "gas", some 30, none, 5⟩] : List SRow).filter
            fun x => skey x == skey r).map ppt).sum).sum = 1
    ∧ ((((split_over_technology
          [⟨"s", 2023, "p", 1, 1, 202312, "coal", some 10, some 20, 5⟩,
           ⟨"s", 2023, "p", 1, 1, 202312, "gas", some 30, none, 5⟩]).filter
            fun r => skey r == ("s", 2023, "p", 1, 1, 202312)).map SRow.loan).sum = 5) :=
  C10_technology_split_conserves_exposure
    [⟨"s", 2023, "p", 1, 1, 202312, "coal", some 10, some 20, 5⟩,
     ⟨"s", 2023, "p", 1, 1, 202312, "gas", some 30, none, 5⟩]
    ("s", 2023, "p", 1, 1, 202312) 5
    (by
      intro r hr hk
      simp only [List.mem_cons, List.not_mem_nil, or_false] at hr
      rcases hr with h | h <;> subst h <;> rfl)
    ⟨⟨"s", 2023, "p", 1, 1, 202312, "coal", some 10, some 20, 5⟩, by simp, rfl⟩
    (by
      intro r hr hk
      simp only [List.mem_cons, List.not_mem_nil, or_false] at hr
      rcases hr with h | h <;> subst h <;> norm_num)

/-- C2: every aggregated facet row carries score = summed weighted deviation
divided by summed weighted target, clipped to the limit interval; whenever
the summed weighted target is finite and non-zero and the summed weighted
deviation is finite, the score is a finite value inside the interval. -/
theorem C2_score_clipped_and_bounded {κ : Type} [DecidableEq κ]
    (data : List (AggRow κ)) (limit : ℚ) (hlim : 0 ≤ limit)
    (k : κ) (sL sD sT sc : Flt)
    (hmem : (k, sL, sD, sT, sc) ∈ aggregate_results data limit) :
    sc = Flt.clip (Flt.div sD sT) (-limit) limit
    ∧ (∀ d t : ℚ, sD = Flt.fin d → sT = Flt.fin t → t ≠ 0 →
        ∃ s : ℚ, sc = Flt.fin s ∧ -limit ≤ s ∧ s ≤ limit) := by
  unfold aggregate_results at hmem
  rcases List.mem_map.mp hmem with ⟨k0, _, heq⟩
  simp only [Prod.mk.injEq] at heq
  obtain ⟨hk, hL', hD', hT', hsc'⟩ := heq
  constructor
  · rw [← hsc', ← hD', ← hT']
  · intro d t hD hT ht
    rw [← hsc', hD'.trans hD, hT'.trans hT]
    unfold Flt.div
    simp only [ht, if_false]
    unfold Flt.clip
    refine ⟨min (max (d / t) (-limit)) limit, rfl, ?_, min_le_right _ _⟩
    exact le_min (le_trans (le_max_right _ _) (le_refl _)) (by linarith)

/-- Witness for C2 at a single-row table with weighted deviation 1, weighted
target 2 and limit 3: the score is a finite value within the interval. -/
theorem C2_witness :
    ∃ s : ℚ,
      Flt.clip (Flt.div (Flt.psum [Flt.fin 1]) (Flt.psum [Flt.fin 2])) (-(3 : ℚ)) 3
          = Flt.fin s
        ∧ -(3 : ℚ) ≤ s ∧ s ≤ 3 := by
  have hmem : ((0 : ℕ), Flt.psum [Flt.fin 2], Flt.psum [Flt.fin 1], Flt.psum [Flt.fin 2],
      Flt.clip (Flt.div (Flt.psum [Flt.fin 1]) (Flt.psum [Flt.fin 2])) (-(3 : ℚ)) 3)
      ∈ aggregate_results [⟨0, Flt.fin 2, Flt.fin 1, Flt.fin 2⟩] (3 : ℚ) := by
    exact List.mem_singleton_self _
  have h := C2_score_clipped_and_bounded
    [⟨0, Flt.fin 2, Flt.fin 1, Flt.fin 2⟩] 3 (by norm_num)
    0 (Flt.psum [Flt.fin 2]) (Flt.psum [Flt.fin 1]) (Flt.psum [Flt.fin 2])
    (Flt.clip (Flt.div (Flt.psum [Flt.fin 1]) (Flt.psum [Flt.fin 2])) (-(3 : ℚ)) 3)
    hmem
  exact h.2 (1 + 0) (2 + 0) rfl rfl (by norm_num)

/-- C8 counterexample: a facet group with summed weighted target 0 and summed
weighted deviation 5 receives, with limit 3, the CLIPPED finite score 3, not
an unclipped NaN or infinity: the clipping does rescue the infinite quotient,
refuting the claim that the caller receives an unclipped NaN or infinity
whenever the summed weighted target is zero. -/
theorem C8_counterexample :
    aggregate_results [(⟨0, Flt.fin 1, Flt.fin 5, Flt.fin 0⟩ : AggRow ℕ)] 3
        = [(0, Flt.fin (1 + 0), Flt.fin (5 + 0), Flt.fin (0 + 0), Flt.fin 3)]
    ∧ Flt.fin 3 ≠ Flt.nan ∧ Flt.fin 3 ≠ Flt.pinf ∧ Flt.fin 3 ≠ Flt.ninf
    ∧ -(3 : ℚ) ≤ 3 ∧ (3 : ℚ) ≤ 3 := by
  refine ⟨?_, by simp, by simp, by simp, by norm_num, by norm_num⟩
  have h : aggregate_results [(⟨0, Flt.fin 1, Flt.fin 5, Flt.fin 0⟩ : AggRow ℕ)] 3
      = [(0, Flt.fin (1 + 0), Flt.fin (5 + 0),  Flt.fin (0 + 0),
          Flt.clip (Flt.div (Flt.fin (5 + 0)) (Flt.fin (0 + 0))) (-3) 3)] := rfl
  rw [h]
  have h5 : (5 + 0 : ℚ) = 5 := by norm_num
  have h0 : (0 + 0 : ℚ) = 0 := by norm_num
  rw [h0, h5]
  unfold Flt.div
  norm_num
  unfold Flt.clip
  rfl

/-- C8 amended: when a facet group's summed weighted target is 0 no error is
raised (the score computation is total); the quotient is NaN when the summed
weighted deviation is also 0, and that NaN survives clipping; but a non-zero
finite summed weighted deviation yields a signed infinity that the clipping
maps to plus or minus limit, so only the NaN case reaches the caller
unclipped. -/
theorem C8_zero_target_score {κ : Type} [DecidableEq κ]
    (data : List (AggRow κ)) (limit : ℚ)
    (k : κ) (sL sD sT sc : Flt)
    (hmem : (k, sL, sD, sT, sc) ∈ aggregate_results data limit)
    (hT : sT = Flt.fin 0) (d : ℚ) (hD : sD = Flt.fin d) :
    sc = if d = 0 then Flt.nan
         else if 0 < d then Flt.fin limit else Flt.fin (-limit) := by
  unfold aggregate_results at hmem
  rcases List.mem_map.mp hmem with ⟨k0, _, heq⟩
  simp only [Prod.mk.injEq] at heq
  obtain ⟨hk, hL', hD', hT', hsc'⟩ := heq
  rw [← hsc', hD'.trans hD, hT'.trans hT]
  unfold Flt.div
  by_cases hd : d = 0
  · simp [hd, Flt.clip]
  · by_cases hdp : 0 < d
    · simp [hd, hdp, Flt.clip]
    · simp [hd, hdp, Flt.clip]

/-- Witness for C8 amended at the counterexample input: the group with
summed weighted deviation 5 and summed weighted target 0 receives score 3,
the positive branch of the amended description. -/
theorem C8_witness :
    Flt.clip (Flt.div (Flt.psum [Flt.fin 5]) (Flt.psum [Flt.fin 0])) (-(3 : ℚ)) 3
      = if (5 : ℚ) = 0 then Flt.nan
        else if 0 < (5 : ℚ) then Flt.fin 3 else Flt.fin (-3) := by
  have hmem : ((0 : ℕ), Flt.psum [Flt.fin 1], Flt.psum [Flt.fin 5], Flt.psum [Flt.fin 0],
      Flt.clip (Flt.div (Flt.psum [Flt.fin 5]) (Flt.psum [Flt.fin 0])) (-(3 : ℚ)) 3)
      ∈ aggregate_results [⟨0, Flt.fin 1, Flt.fin 5, Flt.fin 0⟩] (3 : ℚ) :=
    List.mem_singleton_self _
  have h := C8_zero_target_score
    [⟨0, Flt.fin 1, Flt.fin 5, Flt.fin 0⟩] 3
    0 (Flt.psum [Flt.fin 1]) (Flt.psum [Flt.fin 5]) (Flt.psum [Flt.fin 0])
    (Flt.clip (Flt.div (Flt.psum [Flt.fin 5]) (Flt.psum [Flt.fin 0])) (-(3 : ℚ)) 3)
    hmem (by simp [Flt.psum, Flt.add]) 5 (by simp [Flt.psum, Flt.add])
  exact h

theorem negIter_neg (n : ℕ) (x : Flt) : negIter n (Flt.neg x) = Flt.neg (negIter n x) := by
  induction n with
  | zero => rfl
  | succ n ih => simp [negIter, ih]

theorem negIter_add (m n : ℕ) (x : Flt) :
    negIter (m + n) x = negIter n (negIter m x) := by
  induction n with
  | zero => rfl
  | succ n ih => simp [Nat.add_succ, negIter, ih]

theorem flip_inner_get (secname : String) (ts : List String) (i : ℕ) (r : ARow) :
    ∀ (acc : List ARow) (d : Flt), acc[i]? = some { r with deviation := d } →
      (ts.foldl (fun acc2 tech => acc2.map fun x =>
          if x.technology == tech && x.sector == secname then
            { x with deviation := Flt.neg x.deviation } else x) acc)[i]?
        = some { r with deviation :=
                   negIter (if r.sector == secname then
                     (ts.filter fun t => r.technology == t).length else 0) d } := by
  induction ts with
  | nil =>
      intro acc d h
      simpa [negIter] using h
  | cons t ts ih =>
      intro acc d h
      simp only [List.foldl_cons]
      have hstep : (acc.map fun x =>
          if x.technology == t && x.sector == secname then
            { x with deviation := Flt.neg x.deviation } else x)[i]?
          = some (if r.technology == t && r.sector == secname then
              { r with deviation := Flt.neg d } else { r with deviation := d }) := by
        rw [List.getElem?_map, h]
        rfl
      by_cases hsec : (r.sector == secname) = true
      · by_cases htech : (r.technology == t) = true
        · have h2 := ih _ (Flt.neg d) (by rw [hstep]; simp [htech, hsec])
          rw [h2]
          have hcnt : ((t :: ts).filter fun x => r.technology == x)
              = t :: (ts.filter fun x => r.technology == x) := by
            simp [List.filter_cons, htech]
          simp [hsec, hcnt, negIter_neg, negIter]
        · have h2 := ih _ d (by rw [hstep]; simp [htech])
          rw [h2]
          have hcnt : ((t :: ts).filter fun x => r.technology == x)
              = ts.filter fun x => r.technology == x := by
            simp [List.filter_cons, htech]
          rw [hcnt]
      · have h2 := ih _ d (by rw [hstep]; simp [hsec])
        rw [h2]
        simp [hsec]

theorem flip_deviations_get (cfg : List (String × SectorSettings)) (i : ℕ) (r : ARow) :
    ∀ (data : List ARow) (d : Flt), data[i]? = some { r with deviation := d } →
      (flip_deviations cfg data)[i]?
        = some { r with deviation := negIter (flipOcc cfg r) d } := by
  induction cfg with
  | nil =>
      intro data d h
      simpa [flip_deviations, flipOcc, negIter] using h
  | cons sc cfg ih =>
      intro data d h
      have hinner := flip_inner_get sc.1 (sc.2.phase_out ++ sc.2.other) i r data d h
      have hres := ih _ _ hinner
      have hout : flip_deviations (sc :: cfg) data
          = flip_deviations cfg ((sc.2.phase_out ++ sc.2.other).foldl
              (fun acc2 tech => acc2.map fun x =>
                if x.technology == tech && x.sector == sc.1 then
                  { x with deviation := Flt.neg x.deviation } else x) data) := by
        simp [flip_deviations, List.foldl_cons]
      rw [hout, hres]
      have hocc : flipOcc (sc :: cfg) r
          = (if r.sector == sc.1 then
              (((sc.2.phase_out ++ sc.2.other)).filter fun t => r.technology == t).length
             else 0) + flipOcc cfg r := by
        simp [flipOcc]
      rw [hocc, negIter_add]

theorem flip_inner_length (secname : String) (ts : List String) :
    ∀ acc : List ARow,
      (ts.foldl (fun acc2 tech => acc2.map fun x =>
          if x.technology == tech && x.sector == secname then
            { x with deviation := Flt.neg x.deviation } else x) acc).length
        = acc.length := by
  induction ts with
  | nil => intro acc; rfl
  | cons t ts ih =>
      intro acc
      simp only [List.foldl_cons]
      rw [ih]
      simp

theorem flip_deviations_length (cfg : List (String × SectorSettings)) :
    ∀ data : List ARow, (flip_deviations cfg data).length = data.length := by
  induction cfg with
  | nil => intro data; rfl
  | cons sc cfg ih =>
      intro data
      have hout : flip_deviations (sc :: cfg) data
          = flip_deviations cfg ((sc.2.phase_out ++ sc.2.other).foldl
              (fun acc2 tech => acc2.map fun x =>
                if x.technology == tech && x.sector == sc.1 then
                  { x with deviation := Flt.neg x.deviation } else x) data) := by
        simp [flip_deviations, List.foldl_cons]
      rw [hout, ih, flip_inner_length]

theorem eq_singleton_of_len_one {α : Type} (l : List α) (x : α)
    (hlen : l.length = 1) (h0 : l[0]? = some x) : l = [x] := by
  match l, hlen with
  | [a], _ =>
      simp only [List.getElem?_cons_zero, Option.some.injEq] at h0
      rw [h0]

/-- C3: the sign-flip pass of _make_weighted_target negates the deviation of
every row whose (sector, technology) pair is classified phase_out or other
(appears exactly once in those lists) and leaves rows with no such
classification, in particular build_out rows, unchanged; and for a
single-row input in a phase-out technology with production 120, target 100
and a positive loan indicator, the aggregated weighted deviation is a
negative finite value. -/
theorem C3_sign_flip_deviation :
    (∀ (cfg : List (String × SectorSettings)) (data : List ARow) (i : ℕ) (r : ARow),
        data[i]? = some r →
        (flipOcc cfg r = 1 →
          (flip_deviations cfg data)[i]? = some { r with deviation := Flt.neg r.deviation })
        ∧ (flipOcc cfg r = 0 → (flip_deviations cfg data)[i]? = some r))
    ∧ (∀ (cfg : List (String × SectorSettings)) (row : ARow) (L limit : ℚ)
        (ey : ℤ) (ckey rkey : ARow → ℕ),
        0 < L → flipOcc cfg row = 1 →
        row.production = Flt.fin 120 → row.target = Flt.fin 100 →
        row.loan = Flt.fin L → row.year = ey →
        ∃ d : ℚ,
          (aggregate_results (alignment_rows cfg [row] ckey rkey ey) limit).map
              (fun e => e.2.2.1) = [Flt.fin d]
            ∧ d < 0) := by
  constructor
  · intro cfg data i r hget
    have hbase := flip_deviations_get cfg i r data r.deviation hget
    constructor
    · intro h1
      rw [hbase, h1]
      rfl
    · intro h0
      rw [hbase, h0]
      rfl
  · intro cfg row L limit ey ckey rkey hL hocc hprod htgt hloan hyear
    obtain ⟨sec, tech, yr, eyr, prod, tgt, dev, ln⟩ := row
    simp only at hprod htgt hloan hyear hocc
    subst hprod
    subst htgt
    subst hloan
    subst hyear
    have hoccR : flipOcc cfg
        ⟨sec, tech, yr, yr, Flt.fin 120, Flt.fin 100, Flt.fin (120 + -100), Flt.fin L⟩
        = 1 := hocc
    have hflip0 := flip_deviations_get cfg 0
      ⟨sec, tech, yr, yr, Flt.fin 120, Flt.fin 100, Flt.fin (120 + -100), Flt.fin L⟩
      [⟨sec, tech, yr, yr, Flt.fin 120, Flt.fin 100, Flt.fin (120 + -100), Flt.fin L⟩]
      (Flt.fin (120 + -100)) rfl
    rw [hoccR] at hflip0
    have hflip : flip_deviations cfg
        [⟨sec, tech, yr, yr, Flt.fin 120, Flt.fin 100, Flt.fin (120 + -100), Flt.fin L⟩]
        = [⟨sec, tech, yr, yr, Flt.fin 120, Flt.fin 100, Flt.fin (-(120 + -100)),
            Flt.fin L⟩] := by
      apply eq_singleton_of_len_one
      · rw [flip_deviations_length]; rfl
      · rw [hflip0]; rfl
    have halign : alignment_rows cfg
        [⟨sec, tech, yr, eyr, Flt.fin 120, Flt.fin 100, dev, Flt.fin L⟩] ckey rkey yr
        = [⟨rkey ⟨sec, tech, yr, yr, Flt.fin 120, Flt.fin 100, Flt.fin (-(120 + -100)),
              Flt.fin L⟩,
            Flt.fin L,
            Flt.fin ((-(120 + -100)) * L),
            Flt.mul
              (targetEnd
                [⟨sec, tech, yr, yr, Flt.fin 120, Flt.fin 100, Flt.fin (-(120 + -100)),
                  Flt.fin L⟩]
                ckey yr
                (ckey ⟨sec, tech, yr, yr, Flt.fin 120, Flt.fin 100,
                  Flt.fin (-(120 + -100)), Flt.fin L⟩))
              (Flt.fin L)⟩] := by
      unfold alignment_rows make_weighted_target
      simp only [List.map_cons, List.map_nil]
      rw [show mk_deviation
            [⟨sec, tech, yr, yr, Flt.fin 120, Flt.fin 100, dev, Flt.fin L⟩]
          = [⟨sec, tech, yr, yr, Flt.fin 120, Flt.fin 100, Flt.fin (120 + -100),
              Flt.fin L⟩] from rfl]
      rw [hflip]
      simp [Flt.mul]
    rw [halign]
    refine ⟨(-(120 + -100)) * L + 0, ?_, ?_⟩
    · unfold aggregate_results
      simp [Flt.psum, Flt.add, List.dedup]
    · have h20 : (0 : ℚ) < 20 * L := by
        have h : (0 : ℚ) < 20 := by norm_num
        exact mul_pos h hL
      have he : (-(120 + -100)) * L + 0 = -(20 * L) := by ring
      rw [he]
      linarith

/-- Witness for C3: a concrete configuration classifying coal as phase-out in
the power sector; a coal row's deviation is negated by the flip pass, and the
single-row 120-production, 100-target, 1000-loan instance aggregates to a
negative weighted deviation. -/
theorem C3_witness :
    ((flip_deviations [("power", ⟨[], [], ["renewables"], ["coal"], []⟩)]
        [⟨"power", "coal", 2023, 2028, Flt.fin 1, Flt.fin 2, Flt.fin 7, Flt.fin 3⟩])[0]?
      = some ⟨"power", "coal", 2023, 2028, Flt.fin 1, Flt.fin 2,
          Flt.neg (Flt.fin 7), Flt.fin 3⟩)
    ∧ ∃ d : ℚ,
        (aggregate_results (alignment_rows
            [("power", ⟨[], [], ["renewables"], ["coal"], []⟩)]
            [⟨"power", "coal", 2023, 2028, Flt.fin 120, Flt.fin 100, Flt.nan,
              Flt.fin 1000⟩]
            (fun _ => 0) (fun _ => 0) 2023) 3).map (fun e => e.2.2.1) = [Flt.fin d]
          ∧ d < 0 := by
  constructor
  · exact (C3_sign_flip_deviation.1 [("power", ⟨[], [], ["renewables"], ["coal"], []⟩)]
      [⟨"power", "coal", 2023, 2028, Flt.fin 1, Flt.fin 2, Flt.fin 7, Flt.fin 3⟩] 0
      ⟨"power", "coal", 2023, 2028, Flt.fin 1, Flt.fin 2, Flt.fin 7, Flt.fin 3⟩ rfl).1 rfl
  · exact C3_sign_flip_deviation.2 [("power", ⟨[], [], ["renewables"], ["coal"], []⟩)]
      ⟨"power", "coal", 2023, 2028, Flt.fin 120, Flt.fin 100, Flt.nan, Flt.fin 1000⟩
      1000 3 2023 (fun _ => 0) (fun _ => 0) (by norm_num) rfl rfl rfl rfl rfl

theorem inner_region_erase (secname : String) (rcs : List (String × List String)) :
    ∀ acc : List CIRow,
      ((rcs.foldl (fun acc2 rc => acc2.map fun r =>
          if r.sector == secname && rc.2.contains r.plant_location then
            { r with region := some rc.1 } else r) acc)).map eraseRegion
        = acc.map eraseRegion := by
  induction rcs with
  | nil => intro acc; rfl
  | cons rc rcs ih =>
      intro acc
      simp only [List.foldl_cons]
      rw [ih, List.map_map]
      apply List.map_congr_left
      intro r _
      simp only [Function.comp_apply]
      split <;> rfl

theorem fold_region_erase (m : List (String × List (String × List String))) :
    ∀ acc : List CIRow,
      ((m.foldl (fun acc sm => sm.2.foldl (fun acc2 rc => acc2.map fun r =>
          if r.sector == sm.1 && rc.2.contains r.plant_location then
            { r with region := some rc.1 } else r) acc) acc)).map eraseRegion
        = acc.map eraseRegion := by
  induction m with
  | nil => intro acc; rfl
  | cons sm m ihm =>
      intro acc
      simp only [List.foldl_cons]
      rw [ihm, inner_region_erase]

theorem add_region_table_erase
    (mapping : Option (List (String × List (String × List String))))
    (rows : List CIRow) :
    (add_region_table mapping rows).map eraseRegion = rows.map eraseRegion := by
  unfold add_region_table
  have hbase : ((rows.map fun r => { r with region := some "global" }).map eraseRegion)
      = rows.map eraseRegion := by
    rw [List.map_map]
    rfl
  match mapping with
  | none => exact hbase
  | some m => rw [fold_region_erase]; exact hbase

/-- C9 counterexample: _calculate_pacta does mutate the cached per-year
company-indicator table: _add_region writes the region column directly into
the cache.  At a one-row cached table without a region value, the cached
table after the call carries region global and so differs from the cached
table before the call, refuting the claim that the cached tables are
unchanged. -/
theorem C9_counterexample :
    ((calculate_pacta 2023 none (fun _ => (0 : ℕ))
        ⟨[(2023, [⟨1, "s", "t", "NL", 2023, 10, 0, none⟩])], []⟩).pacta_company_indicators
      = [(2023, [⟨1, "s", "t", "NL", 2023, 10, 0, some "global"⟩])])
    ∧ ((calculate_pacta 2023 none (fun _ => (0 : ℕ))
        ⟨[(2023, [⟨1, "s", "t", "NL", 2023, 10, 0, none⟩])], []⟩).pacta_company_indicators
      ≠ [(2023, [⟨1, "s", "t", "NL", 2023, 10, 0, none⟩])]) := by
  constructor
  · rfl
  · have h1 : (calculate_pacta 2023 none (fun _ => (0 : ℕ))
        ⟨[(2023, [⟨1, "s", "t", "NL", 2023, 10, 0, none⟩])], []⟩).pacta_company_indicators
        = [(2023, [⟨1, "s", "t", "NL", 2023, 10, 0, some "global"⟩])] := rfl
    rw [h1]
    simp

/-- C9 amended: _calculate_pacta mutates the cached company-indicator tables
only through the region column written by _add_region: erasing the region
column, every cached table (every year) is unchanged by the call, for every
region mapping and every pure computation f applied to the copied table. -/
theorem C9_cache_mutation_only_region {α : Type} (s : ACState α) (year : ℤ)
    (mapping : Option (List (String × List (String × List String))))
    (f : List CIRow → α) :
    ((calculate_pacta year mapping f s).pacta_company_indicators.map
        fun p => (p.1, p.2.map eraseRegion))
      = s.pacta_company_indicators.map fun p => (p.1, p.2.map eraseRegion) := by
  unfold calculate_pacta add_region
  simp only
  rw [List.map_map]
  apply List.map_congr_left
  intro p _
  simp only [Function.comp_apply]
  split
  · exact congrArg (fun l => (p.1, l)) (add_region_table_erase mapping p.2)
  · rfl

theorem filterMap_ite {α β : Type} (f : α → β) (p : α → Bool) (l : List α) :
    (l.filterMap fun a => if p a then some (f a) else none) = (l.filter p).map f := by
  induction l with
  | nil => rfl
  | cons a l ih =>
      by_cases h : p a = true
      · simp [List.filterMap_cons, List.filter_cons, h, ih]
      · simp [List.filterMap_cons, List.filter_cons, h, ih]

/-- C6 counterexample: under the total normalisation method, a one-row table
whose only row is not at the normalisation year has no divisor entry for its
sector, and the inner merge DROPS the row instead of assigning norm 1: the
returned table is empty although the input is not, refuting the claim that no
input row is dropped and that missing divisors are filled with 1. -/
theorem C6_counterexample :
    normalise_production "total" [] [] [] [⟨1, "s", "p", 2020, 100, 5⟩] 2021 = []
    ∧ ([⟨1, "s", "p", 2020, 100, 5⟩] : List CRow) ≠ [] := by
  exact ⟨rfl, by simp⟩

/-- C6 amended: every row of the table returned by _normalise_production
carries a defined norm, and for an unrecognised method name every row is kept
with norm 1; the company method also keeps every row, with the company-sector
production sum as norm; but the global, economic, total and portfolio methods
inner-merge with their divisor tables, keeping exactly the rows whose divisor
group exists (for total: a positive-loan row of the same sector at the given
year; for global and economic: a parent-company indicator row of the same
sector) with the group sum as norm, and dropping all other rows rather than
filling norm 1. -/
theorem C6_normalisation_described
    (cached : List CIRow) (ownership : List ORow) (weights : List (String × ℚ))
    (df : List CRow) (year : ℤ) :
    (∀ m : String,
      m ∉ (["global", "economic", "total", "portfolio", "company"] : List String) →
      normalise_production m cached ownership weights df year = df.map fun r => (r, 1))
    ∧ (normalise_production "company" cached ownership weights df year
        = df.map fun r =>
            (r, cProdSum (df.filter fun x =>
              x.sector == r.sector && x.company_id == r.company_id)))
    ∧ (normalise_production "total" cached ownership weights df year
        = (df.filter fun r =>
            ((df.filter fun x => x.year == year && decide (0 < x.loan)).map
              CRow.sector).dedup.contains r.sector).map
          fun r =>
            (r, cProdSum ((df.filter fun x =>
              x.year == year && decide (0 < x.loan)).filter
                fun x => x.sector == r.sector)))
    ∧ (∀ r : CRow,
        (((df.filter fun x => x.year == year && decide (0 < x.loan)).map
            CRow.sector).dedup.contains r.sector) = true
          ↔ ∃ x ∈ df, x.year = year ∧ 0 < x.loan ∧ x.sector = r.sector)
    ∧ (normalise_production "portfolio" cached ownership weights df year
        = (df.filter fun r =>
            ((df.filter fun x => x.year == year && decide (0 < x.loan)).map
              fun x => (x.sector, x.portfolio_id)).dedup.contains
                (r.sector, r.portfolio_id)).map
          fun r =>
            (r, cProdSum ((df.filter fun x =>
              x.year == year && decide (0 < x.loan)).filter
                fun x => x.sector == r.sector && x.portfolio_id == r.portfolio_id)))
    ∧ (normalise_production "global" cached ownership weights df year
        = (df.filter fun r =>
            ((cached.filter fun x =>
              ((get_parent_companies false ownership true).map
                Prod.snd).contains x.company_id).map CIRow.sector).dedup.contains
                  r.sector).map
          fun r =>
            (r, ciProdSum ((cached.filter fun x =>
              ((get_parent_companies false ownership true).map
                Prod.snd).contains x.company_id).filter
                  fun x => x.sector == r.sector)))
    ∧ ((normalise_production "economic" cached ownership weights df year).map Prod.fst
        = (normalise_production "global" cached ownership weights df year).map
            Prod.fst) := by
  refine ⟨?_, ?_, ?_, ?_, ?_, ?_, ?_⟩
  · intro m hm
    have h1 : ¬m = "global" := by intro e; exact hm (by simp [e])
    have h2 : ¬m = "economic" := by intro e; exact hm (by simp [e])
    have h3 : ¬m = "total" := by intro e; exact hm (by simp [e])
    have h4 : ¬m = "portfolio" := by intro e; exact hm (by simp [e])
    have h5 : ¬m = "company" := by intro e; exact hm (by simp [e])
    simp [normalise_production, h1, h2, h3, h4, h5]
  · have h : normalise_production "company" cached ownership weights df year
        = df.filterMap fun r =>
            if ((df.map fun x => (x.sector, x.company_id)).dedup).contains
                (r.sector, r.company_id) then
              some (r, cProdSum (df.filter fun x =>
                x.sector == r.sector && x.company_id == r.company_id))
            else none := rfl
    rw [h, filterMap_ite]
    have hall : (df.filter fun r =>
        ((df.map fun x => (x.sector, x.company_id)).dedup).contains
          (r.sector, r.company_id)) = df := by
      apply List.filter_eq_self.mpr
      intro r hr
      exact List.elem_iff.mpr
        (List.mem_dedup.mpr (List.mem_map.mpr ⟨r, hr, rfl⟩))
    rw [hall]
  · have h : normalise_production "total" cached ownership weights df year
        = df.filterMap fun r =>
            if (((df.filter fun x => x.year == year && decide (0 < x.loan)).map
                CRow.sector).dedup).contains r.sector then
              some (r, cProdSum ((df.filter fun x =>
                x.year == year && decide (0 < x.loan)).filter
                  fun x => x.sector == r.sector))
            else none := rfl
    rw [h, filterMap_ite]
  · intro r
    constructor
    · intro h
      have hm := List.elem_iff.mp h
      rw [List.mem_dedup] at hm
      rcases List.mem_map.mp hm with ⟨x, hx, hxs⟩
      rcases List.mem_filter.mp hx with ⟨hxdf, hcond⟩
      simp only [Bool.and_eq_true, beq_iff_eq, decide_eq_true_eq] at hcond
      exact ⟨x, hxdf, hcond.1, hcond.2, hxs⟩
    · rintro ⟨x, hx, hy, hl, hs⟩
      apply List.elem_iff.mpr
      rw [List.mem_dedup]
      exact List.mem_map.mpr ⟨x, List.mem_filter.mpr ⟨hx, by simp [hy, hl]⟩, hs⟩
  · have h : normalise_production "portfolio" cached ownership weights df year
        = df.filterMap fun r =>
            if (((df.filter fun x => x.year == year && decide (0 < x.loan)).map
                fun x => (x.sector, x.portfolio_id)).dedup).contains
                  (r.sector, r.portfolio_id) then
              some (r, cProdSum ((df.filter fun x =>
                x.year == year && decide (0 < x.loan)).filter
                  fun x => x.sector == r.sector && x.portfolio_id == r.portfolio_id))
            else none := rfl
    rw [h, filterMap_ite]
  · have h : normalise_production "global" cached ownership weights df year
        = df.filterMap fun r =>
            if (((cached.filter fun x =>
                ((get_parent_companies false ownership true).map
                  Prod.snd).contains x.company_id).map CIRow.sector).dedup).contains
                    r.sector then
              some (r, ciProdSum ((cached.filter fun x =>
                ((get_parent_companies false ownership true).map
                  Prod.snd).contains x.company_id).filter
                    fun x => x.sector == r.sector))
            else none := rfl
    rw [h, filterMap_ite]
  · have hecon : normalise_production "economic" cached ownership weights df year
        = df.filterMap fun r =>
            if (((cached.filter fun x =>
                ((get_parent_companies false ownership true).map
                  Prod.snd).contains x.company_id).map CIRow.sector).dedup).contains
                    r.sector then
              some (r,
                ((weights.filterMap fun w =>
                  if w.1 == r.sector then some w.2 else none).foldl
                    (fun acc w => acc * w) 1)
                * ciProdSum ((cached.filter fun x =>
                    ((get_parent_companies false ownership true).map
                      Prod.snd).contains x.company_id).filter
                        fun x => x.sector == r.sector))
            else none := rfl
    have hglob : normalise_production "global" cached ownership weights df year
        = df.filterMap fun r =>
            if (((cached.filter fun x =>
                ((get_parent_companies false ownership true).map
                  Prod.snd).contains x.company_id).map CIRow.sector).dedup).contains
                    r.sector then
              some (r, ciProdSum ((cached.filter fun x =>
                ((get_parent_companies false ownership true).map
                  Prod.snd).contains x.company_id).filter
                    fun x => x.sector == r.sector))
            else none := rfl
    rw [hecon, hglob, filterMap_ite, filterMap_ite, List.map_map, List.map_map]
    rfl

/-- Witness for C6 amended at a concrete one-row table: an unrecognised
method name keeps the row and assigns norm 1. -/
theorem C6_witness :
    normalise_production "norm-off" [] [] [] [⟨1, "s", "p", 2020, 100, 5⟩] 2020
      = [(⟨1, "s", "p", 2020, 100, 5⟩, 1)] := by
  have h := (C6_normalisation_described [] [] [] [⟨1, "s", "p", 2020, 100, 5⟩] 2020).1
    "norm-off" (by decide)
  exact h

/-- C5 counterexample: the eligibility filter keys on company_id alone, not
on company-sector pairs.  Company 1 exceeds the asset-ratio threshold in
sector a but not in sector b (both of its sector-b ratios are defined and
below the threshold, so the pair (1, b) is not eligible in the
specification's sense), yet the filter keeps BOTH of its rows, including the
sector-b row, refuting the claim that exactly the rows of eligible
company-sectors are kept. -/
theorem C5_counterexample :
    ((apply_production_thresholds [⟨"a", 1, 1⟩, ⟨"b", 1, 1⟩]
        ⟨true, true, [⟨1, "a", "t", "g", 2023, 100, some 10, none⟩,
          ⟨1, "b", "t", "g", 2023, 1, some 100, none⟩]⟩).rows
      = [⟨1, "a", "t", "g", 2023, 100, some 10, none⟩,
         ⟨1, "b", "t", "g", 2023, 1, some 100, none⟩])
    ∧ spec_eligible_pair [⟨"a", 1, 1⟩, ⟨"b", 1, 1⟩]
        (companyAggs [⟨1, "a", "t", "g", 2023, 100, some 10, none⟩,
          ⟨1, "b", "t", "g", 2023, 1, some 100, none⟩]) 1 "b" = false := by
  have hagg : companyAggs [⟨1, "a", "t", "g", 2023, 100, some 10, none⟩,
      ⟨1, "b", "t", "g", 2023, 1, some 100, none⟩]
      = [⟨1, "a", some 10, none, 100⟩, ⟨1, "b", some 100, none, 1⟩] := by
    have h0 : companyAggs [⟨1, "a", "t", "g", 2023, 100, some 10, none⟩,
        ⟨1, "b", "t", "g", 2023, 1, some 100, none⟩]
        = [⟨1, "a", some ((10 + 0) / ((1 : ℕ) : ℚ)), none, 100 + 0⟩,
           ⟨1, "b", some ((100 + 0) / ((1 : ℕ) : ℚ)), none, 1 + 0⟩] := rfl
    rw [h0]
    norm_num
  have helig : eligibleCompanies [⟨"a", 1, 1⟩, ⟨"b", 1, 1⟩]
      [⟨1, "a", some 10, none, 100⟩, ⟨1, "b", some 100, none, 1⟩] = [1] := by
    simp only [eligibleCompanies, List.foldl_cons, List.foldl_nil, List.filter_cons,
      List.filter_nil, bothRatiosNaN, assetRatio, turnoverRatio, ofOpt]
    norm_num [Flt.div, Flt.gtq]
    simp
  constructor
  · have h1 : (apply_production_thresholds [⟨"a", 1, 1⟩, ⟨"b", 1, 1⟩]
        ⟨true, true, [⟨1, "a", "t", "g", 2023, 100, some 10, none⟩,
          ⟨1, "b", "t", "g", 2023, 1, some 100, none⟩]⟩).rows
        = ([⟨1, "a", "t", "g", 2023, 100, some 10, none⟩,
            ⟨1, "b", "t", "g", 2023, 1, some 100, none⟩] : List LRow).filter
              fun r => (eligibleCompanies [⟨"a", 1, 1⟩, ⟨"b", 1, 1⟩]
                (companyAggs [⟨1, "a", "t", "g", 2023, 100, some 10, none⟩,
                  ⟨1, "b", "t", "g", 2023, 1, some 100, none⟩])).contains
                  r.company_id := rfl
    rw [h1, hagg, helig]
    rfl
  · rw [hagg]
    simp only [spec_eligible_pair, List.any_cons, List.any_nil,
      bothRatiosNaN, assetRatio, turnoverRatio, ofOpt]
    norm_num [Flt.div, Flt.gtq]
    simp

theorem mem_eligible_fold (f1 f2 : Threshold → List ℕ) (ts : List Threshold) :
    ∀ (acc : List ℕ) (c : ℕ),
      c ∈ ts.foldl (fun acc t => acc ++ f1 t ++ f2 t) acc
        ↔ c ∈ acc ∨ ∃ t ∈ ts, c ∈ f1 t ∨ c ∈ f2 t := by
  induction ts with
  | nil =>
      intro acc c
      simp
  | cons t ts ih =>
      intro acc c
      simp only [List.foldl_cons]
      rw [ih]
      simp only [List.mem_append, List.mem_cons]
      constructor
      · rintro (((h | h) | h) | ⟨t2, ht2, h⟩)
        · exact Or.inl h
        · exact Or.inr ⟨t, Or.inl rfl, Or.inl h⟩
        · exact Or.inr ⟨t, Or.inl rfl, Or.inr h⟩
        · exact Or.inr ⟨t2, Or.inr ht2, h⟩
      · rintro (h | ⟨t2, (ht2 | ht2), h⟩)
        · exact Or.inl (Or.inl (Or.inl h))
        · subst ht2
          rcases h with h | h
          · exact Or.inl (Or.inl (Or.inr h))
          · exact Or.inl (Or.inr h)
        · exact Or.inr ⟨t2, ht2, h⟩

/-- C5 amended: when either the turnover or the total_assets column is absent
the table is returned unchanged; when both are present the filter keeps
exactly the rows whose COMPANY is eligible, where a company is eligible if
some of its company-sector aggregates has both ratios undefined or exceeds a
configured threshold of that aggregate's own sector — so a company eligible
in one sector keeps its rows in all of its sectors. -/
theorem C5_eligibility_filter (thresholds : List Threshold) (tbl : LoanTable) :
    ((tbl.has_turnover && tbl.has_total_assets) = false →
      apply_production_thresholds thresholds tbl = tbl)
    ∧ ((tbl.has_turnover && tbl.has_total_assets) = true →
      (apply_production_thresholds thresholds tbl).rows
        = tbl.rows.filter fun r =>
            (eligibleCompanies thresholds (companyAggs tbl.rows)).contains
              r.company_id)
    ∧ (∀ c : ℕ,
        ((eligibleCompanies thresholds (companyAggs tbl.rows)).contains c = true)
          ↔ ∃ a ∈ companyAggs tbl.rows, a.company_id = c
              ∧ (bothRatiosNaN a = true
                 ∨ ∃ t ∈ thresholds, t.sector = a.sector
                     ∧ (Flt.gtq (assetRatio a) t.asset_ratio = true
                        ∨ Flt.gtq (turnoverRatio a) t.turnover_ratio = true))) := by
  refine ⟨?_, ?_, ?_⟩
  · intro h
    simp [apply_production_thresholds, h]
  · intro h
    simp [apply_production_thresholds, h]
  · intro c
    unfold eligibleCompanies
    rw [List.elem_iff, mem_eligible_fold]
    constructor
    · rintro (h | ⟨t, ht, h | h⟩)
      · rcases List.mem_map.mp h with ⟨a, haf, hid⟩
        rcases List.mem_filter.mp haf with ⟨ha, hboth⟩
        exact ⟨a, ha, hid, Or.inl hboth⟩
      · rcases List.mem_map.mp h with ⟨a, haf, hid⟩
        rcases List.mem_filter.mp haf with ⟨ha, hcond⟩
        rw [Bool.and_eq_true, beq_iff_eq] at hcond
        exact ⟨a, ha, hid, Or.inr ⟨t, ht, hcond.1.symm, Or.inl hcond.2⟩⟩
      · rcases List.mem_map.mp h with ⟨a, haf, hid⟩
        rcases List.mem_filter.mp haf with ⟨ha, hcond⟩
        rw [Bool.and_eq_true, beq_iff_eq] at hcond
        exact ⟨a, ha, hid, Or.inr ⟨t, ht, hcond.1.symm, Or.inr hcond.2⟩⟩
    · rintro ⟨a, ha, hid, hboth | ⟨t, ht, hsec, hratio | hratio⟩⟩
      · exact Or.inl (List.mem_map.mpr ⟨a, List.mem_filter.mpr ⟨ha, hboth⟩, hid⟩)
      · refine Or.inr ⟨t, ht, Or.inl (List.mem_map.mpr
          ⟨a, List.mem_filter.mpr ⟨ha, ?_⟩, hid⟩)⟩
        rw [Bool.and_eq_true, beq_iff_eq]
        exact ⟨hsec.symm, hratio⟩
      · refine Or.inr ⟨t, ht, Or.inr (List.mem_map.mpr
          ⟨a, List.mem_filter.mpr ⟨ha, ?_⟩, hid⟩)⟩
        rw [Bool.and_eq_true, beq_iff_eq]
        exact ⟨hsec.symm, hratio⟩

/-- Witness for C5 amended: the filter equation at the counterexample table,
and the no-op branch at a table without a turnover column. -/
theorem C5_witness :
    ((apply_production_thresholds [⟨"a", 1, 1⟩, ⟨"b", 1, 1⟩]
        ⟨true, true, [⟨1, "a", "t", "g", 2023, 100, some 10, none⟩,
          ⟨1, "b", "t", "g", 2023, 1, some 100, none⟩]⟩).rows
      = ([⟨1, "a", "t", "g", 2023, 100, some 10, none⟩,
          ⟨1, "b", "t", "g", 2023, 1, some 100, none⟩] : List LRow).filter
            fun r => (eligibleCompanies [⟨"a", 1, 1⟩, ⟨"b", 1, 1⟩]
              (companyAggs [⟨1, "a", "t", "g", 2023, 100, some 10, none⟩,
                ⟨1, "b", "t", "g", 2023, 1, some 100, none⟩])).contains
                r.company_id)
    ∧ apply_production_thresholds [⟨"a", 1, 1⟩]
        ⟨false, true, [⟨1, "a", "t", "g", 2023, 100, some 10, none⟩]⟩
      = ⟨false, true, [⟨1, "a", "t", "g", 2023, 100, some 10, none⟩]⟩ :=
  ⟨(C5_eligibility_filter [⟨"a", 1, 1⟩, ⟨"b", 1, 1⟩]
      ⟨true, true, [⟨1, "a", "t", "g", 2023, 100, some 10, none⟩,
        ⟨1, "b", "t", "g", 2023, 1, some 100, none⟩]⟩).2.1 rfl,
   (C5_eligibility_filter [⟨"a", 1, 1⟩]
      ⟨false, true, [⟨1, "a", "t", "g", 2023, 100, some 10, none⟩]⟩).1 rfl⟩

theorem metric_pass_length (mask : List Bool) (off : ℕ) (label : String)
    (ms : List String) : (metric_pass mask off label ms).length = ms.length := by
  simp [metric_pass]

theorem metric_pass_get (mask : List Bool) (off : ℕ) (label : String)
    (ms : List String) (i : ℕ) (hi : i < ms.length) :
    (metric_pass mask off label ms)[i]?
      = some (if mask.getD (i + off) false then label else ms.getD i "") := by
  unfold metric_pass
  rw [List.getElem?_map, List.getElem?_range hi]
  rfl

theorem replicate_getD (n : ℕ) (i : ℕ) : (List.replicate n "").getD i "" = "" := by
  rw [List.getD_eq_getElem?_getD, List.getElem?_replicate]
  by_cases h : i < n
  · simp [h]
  · simp [h]

theorem over_time_metrics_get (l : List TRow) (i : ℕ) (hi : i < l.length) :
    (over_time_metrics l)[i]?
      = some (if anchorAt l (i + 2) then "counterparty_shift"
              else if anchorAt l (i + 1) then "portfolio_shift"
              else if anchorAt l i then "decarbonisation_shift" else "") := by
  unfold over_time_metrics
  have h1len : (metric_pass (anchors l) 0 "decarbonisation_shift"
      (List.replicate l.length "")).length = l.length := by
    rw [metric_pass_length, List.length_replicate]
  have h2len : (metric_pass (anchors l) 1 "portfolio_shift"
      (metric_pass (anchors l) 0 "decarbonisation_shift"
        (List.replicate l.length ""))).length = l.length := by
    rw [metric_pass_length, h1len]
  have h1 : (metric_pass (anchors l) 0 "decarbonisation_shift"
      (List.replicate l.length "")).getD i ""
      = (if anchorAt l i then "decarbonisation_shift" else "") := by
    rw [List.getD_eq_getElem?_getD,
      metric_pass_get (anchors l) 0 "decarbonisation_shift" _ i
        (by rw [List.length_replicate]; exact hi)]
    simp only [Option.getD_some, Nat.add_zero, replicate_getD]
    rfl
  have h2 : (metric_pass (anchors l) 1 "portfolio_shift"
      (metric_pass (anchors l) 0 "decarbonisation_shift"
        (List.replicate l.length ""))).getD i ""
      = (if anchorAt l (i + 1) then "portfolio_shift"
         else if anchorAt l i then "decarbonisation_shift" else "") := by
    rw [List.getD_eq_getElem?_getD,
      metric_pass_get (anchors l) 1 "portfolio_shift" _ i (by rw [h1len]; exact hi)]
    simp only [Option.getD_some, h1]
    rfl
  rw [metric_pass_get (anchors l) 2 "counterparty_shift" _ i
    (by rw [h2len]; exact hi)]
  rw [h2]
  rfl

theorem anchorAt_of_ge (l : List TRow) (j : ℕ) (h : l.length ≤ j) :
    anchorAt l j = false := by
  unfold anchorAt anchors
  rw [List.getD_eq_getElem?_getD, List.getElem?_eq_none]
  · rfl
  · rw [List.length_map]
    exact h

/-- C7 counterexample: in a five-row portfolio frame, already sorted by
(scenario_year, data_year, portfolio_date), whose single anchor row (the
fully-current baseline) sits at position 3, the code labels the anchor
decarbonisation_shift, the row immediately BEFORE it portfolio_shift and the
row two positions before it counterparty_shift; the row AFTER the anchor
(position 4) is left unlabelled, refuting the claim that the difference at
the next row after the anchor is labelled portfolio_shift. -/
theorem C7_counterexample :
    (over_time_sort
        [⟨2022, 2022, 202212, 2028, Flt.fin 1⟩, ⟨2022, 2023, 202312, 2028, Flt.fin 2⟩,
         ⟨2023, 2022, 202212, 2028, Flt.fin 3⟩, ⟨2023, 2023, 202312, 2028, Flt.fin 4⟩,
         ⟨2024, 2023, 202312, 2028, Flt.fin 5⟩]
      = [⟨2022, 2022, 202212, 2028, Flt.fin 1⟩, ⟨2022, 2023, 202312, 2028, Flt.fin 2⟩,
         ⟨2023, 2022, 202212, 2028, Flt.fin 3⟩, ⟨2023, 2023, 202312, 2028, Flt.fin 4⟩,
         ⟨2024, 2023, 202312, 2028, Flt.fin 5⟩])
    ∧ over_time_metrics
        [⟨2022, 2022, 202212, 2028, Flt.fin 1⟩, ⟨2022, 2023, 202312, 2028, Flt.fin 2⟩,
         ⟨2023, 2022, 202212, 2028, Flt.fin 3⟩, ⟨2023, 2023, 202312, 2028, Flt.fin 4⟩,
         ⟨2024, 2023, 202312, 2028, Flt.fin 5⟩]
      = ["", "counterparty_shift", "portfolio_shift", "decarbonisation_shift", ""]
    ∧ (over_time_metrics
        [⟨2022, 2022, 202212, 2028, Flt.fin 1⟩, ⟨2022, 2023, 202312, 2028, Flt.fin 2⟩,
         ⟨2023, 2022, 202212, 2028, Flt.fin 3⟩, ⟨2023, 2023, 202312, 2028, Flt.fin 4⟩,
         ⟨2024, 2023, 202312, 2028, Flt.fin 5⟩])[4]?
      ≠ some "portfolio_shift" := by
  refine ⟨by decide, by decide, by decide⟩

/-- C7 amended: after sorting each portfolio's rows, the successive score
difference at the single anchor row (scenario_year equal to end_year minus
five, to data_year and to the year part of portfolio_date) is labelled
decarbonisation_shift, the difference at the row immediately BEFORE the
anchor portfolio_shift, the difference at the row two positions before the
anchor counterparty_shift, every other row stays unlabelled, and total_shift
is the sum of the three pivoted shift values. -/
theorem C7_shift_labelling (l : List TRow) (p : ℕ)
    (hp : p < l.length)
    (hanch : ∀ j, j < l.length → (anchorAt l j = true ↔ j = p))
    (hp2 : 2 ≤ p) :
    (over_time_metrics l)[p]? = some "decarbonisation_shift"
    ∧ (over_time_metrics l)[p - 1]? = some "portfolio_shift"
    ∧ (over_time_metrics l)[p - 2]? = some "counterparty_shift"
    ∧ (∀ j, j < l.length → j ≠ p → j ≠ p - 1 → j ≠ p - 2 →
        (over_time_metrics l)[j]? = some "")
    ∧ (∀ dy, total_shift l dy
        = Flt.add (Flt.add (pivot_mean l "decarbonisation_shift" dy)
            (pivot_mean l "portfolio_shift" dy))
          (pivot_mean l "counterparty_shift" dy)) := by
  have hfalse : ∀ j, j ≠ p → anchorAt l j = false := by
    intro j hj
    by_cases hlt : j < l.length
    · rcases Bool.eq_false_or_eq_true (anchorAt l j) with h | h
      · exact absurd ((hanch j hlt).mp h) hj
      · exact h
    · exact anchorAt_of_ge l j (le_of_not_lt hlt)
  have htrue : anchorAt l p = true := (hanch p hp).mpr rfl
  refine ⟨?_, ?_, ?_, ?_, ?_⟩
  · rw [over_time_metrics_get l p hp,
      hfalse (p + 2) (by omega), hfalse (p + 1) (by omega), htrue]
    rfl
  · rw [over_time_metrics_get l (p - 1) (by omega),
      hfalse (p - 1 + 2) (by omega)]
    have h1 : p - 1 + 1 = p := by omega
    rw [h1, htrue]
    rfl
  · rw [over_time_metrics_get l (p - 2) (by omega)]
    have h1 : p - 2 + 2 = p := by omega
    rw [h1, htrue]
    rfl
  · intro j hj hj1 hj2 hj3
    rw [over_time_metrics_get l j hj,
      hfalse (j + 2) (by omega), hfalse (j + 1) (by omega), hfalse j hj1]
    rfl
  · intro dy
    rfl

/-- Witness for C7 amended at the five-row counterexample frame, whose single
anchor is at position 3. -/
theorem C7_witness :
    (over_time_metrics
        [⟨2022, 2022, 202212, 2028, Flt.fin 1⟩, ⟨2022, 2023, 202312, 2028, Flt.fin 2⟩,
         ⟨2023, 2022, 202212, 2028, Flt.fin 3⟩, ⟨2023, 2023, 202312, 2028, Flt.fin 4⟩,
         ⟨2024, 2023, 202312, 2028, Flt.fin 5⟩])[3]?
      = some "decarbonisation_shift"
    ∧ (over_time_metrics
        [⟨2022, 2022, 202212, 2028, Flt.fin 1⟩, ⟨2022, 2023, 202312, 2028, Flt.fin 2⟩,
         ⟨2023, 2022, 202212, 2028, Flt.fin 3⟩, ⟨2023, 2023, 202312, 2028, Flt.fin 4⟩,
         ⟨2024, 2023, 202312, 2028, Flt.fin 5⟩])[2]?
      = some "portfolio_shift" := by
  have h := C7_shift_labelling
    [⟨2022, 2022, 202212, 2028, Flt.fin 1⟩, ⟨2022, 2023, 202312, 2028, Flt.fin 2⟩,
     ⟨2023, 2022, 202212, 2028, Flt.fin 3⟩, ⟨2023, 2023, 202312, 2028, Flt.fin 4⟩,
     ⟨2024, 2023, 202312, 2028, Flt.fin 5⟩] 3
    (by decide) (by decide) (by decide)
  exact ⟨h.1, h.2.1⟩

theorem firstFor_isSome (l : List ORow) (k : ℕ) (hk : k ∈ keysOf l) :
    (firstFor l k).isSome = true := by
  unfold firstFor
  rw [List.head?_isSome]
  unfold keysOf at hk
  rw [List.mem_dedup] at hk
  rcases List.mem_map.mp hk with ⟨r, hr, hid⟩
  intro hnil
  have hmem : r ∈ l.filter fun t => t.company_id == k :=
    List.mem_filter.mpr ⟨hr, by simp [hid]⟩
  rw [hnil] at hmem
  exact List.not_mem_nil r hmem

theorem firstFor_sorted_rel (r : ORow → ORow → Prop) [DecidableRel r]
    [IsTotal ORow r] [IsTrans ORow r]
    (l : List ORow) (c : ℕ) (x : ORow)
    (h : firstFor (List.insertionSort r l) c = some x) :
    x ∈ l ∧ x.company_id = c ∧ ∀ y ∈ l, y.company_id = c → r x y := by
  have hperm := List.perm_insertionSort r l
  have hsorted : List.Sorted r (List.insertionSort r l) :=
    List.sorted_insertionSort r l
  unfold firstFor at h
  cases hf : (List.insertionSort r l).filter (fun t => t.company_id == c) with
  | nil =>
      rw [hf] at h
      cases h
  | cons a as =>
      rw [hf] at h
      have hax : a = x := by simpa using h
      subst hax
      have hmemf : a ∈ (List.insertionSort r l).filter fun t => t.company_id == c := by
        rw [hf]
        exact List.mem_cons_self a as
      have hmem : a ∈ List.insertionSort r l := (List.mem_filter.mp hmemf).1
      have hid : a.company_id = c := by
        have h2 := (List.mem_filter.mp hmemf).2
        simpa using h2
      refine ⟨hperm.mem_iff.mp hmem, hid, ?_⟩
      intro y hy hyc
      have hys : y ∈ List.insertionSort r l := hperm.mem_iff.mpr hy
      have hyf : y ∈ (List.insertionSort r l).filter fun t => t.company_id == c :=
        List.mem_filter.mpr ⟨hys, by simp [hyc]⟩
      rw [hf] at hyf
      rcases List.mem_cons.mp hyf with hya | hya
      · subst hya
        rcases total_of r y y with h1 | h1 <;> exact h1
      · have hpair : (a :: as).Pairwise r := by
          rw [← hf]
          exact hsorted.sublist (List.filter_sublist _)
        exact (List.pairwise_cons.mp hpair).1 y hya

theorem countP_keys_filterMap (g : ℕ → Option ORow) (keys : List ℕ) (c : ℕ) :
    keys.Nodup → (∀ k ∈ keys, (g k).isSome = true) →
    ((keys.filterMap fun k => (g k).map fun x => (k, x.parent_company_id)).countP
      fun q => q.1 == c) = if c ∈ keys then 1 else 0 := by
  induction keys with
  | nil =>
      intro _ _
      simp
  | cons k ks ih =>
      intro hnd hg
      rcases Option.isSome_iff_exists.mp (hg k (List.mem_cons_self k ks)) with ⟨x, hx⟩
      rw [List.filterMap_cons, hx]
      simp only [Option.map_some']
      rw [List.countP_cons,
        ih (List.Nodup.of_cons hnd) (fun k2 hk2 => hg k2 (List.mem_cons_of_mem k hk2))]
      by_cases hck : c = k
      · subst hck
        have hnotin : c ∉ ks := (List.nodup_cons.mp hnd).1
        simp [hnotin]
      · have hbe : ((k, x.parent_company_id).1 == c) = false :=
          beq_eq_false_iff_ne.mpr (Ne.symm hck)
        rw [hbe]
        simp [List.mem_cons, hck]

/-- C4: for every company_id present in the ownership table,
_get_parent_companies returns exactly one row for that company, for both
values of stop_at_weak_parents; a company with qualifying parent records is
mapped through a qualifying record of minimal ownership level, and every
other company falls back to one of its ownership records of maximal
ownership level. -/
theorem C4_parent_resolution (stop : Bool) (tbl : List ORow) (c : ℕ)
    (hc : c ∈ tbl.map ORow.company_id) :
    ((get_parent_companies stop tbl true).countP fun q => q.1 == c) = 1
    ∧ ((∃ r ∈ tbl, qualifies stop r = true ∧ r.company_id = c) →
        ∃ r ∈ tbl, qualifies stop r = true ∧ r.company_id = c
          ∧ (c, r.parent_company_id) ∈ get_parent_companies stop tbl true
          ∧ ∀ r2 ∈ tbl, qualifies stop r2 = true → r2.company_id = c →
              r.ownership_level ≤ r2.ownership_level)
    ∧ ((¬∃ r ∈ tbl, qualifies stop r = true ∧ r.company_id = c) →
        ∃ r ∈ tbl, r.company_id = c
          ∧ (c, r.parent_company_id) ∈ get_parent_companies stop tbl true
          ∧ ∀ r2 ∈ tbl, r2.company_id = c →
              r2.ownership_level ≤ r.ownership_level) := by
  have hdef : get_parent_companies stop tbl true
      = ((keysOf (qualSorted stop tbl)).filterMap fun k =>
          (firstFor (qualSorted stop tbl) k).map fun x => (k, x.parent_company_id))
        ++ ((keysOf (restSorted stop tbl)).filterMap fun k =>
          (firstFor (restSorted stop tbl) k).map fun x => (k, x.parent_company_id)) := rfl
  have hkeys1 : ∀ c2 : ℕ, c2 ∈ keysOf (qualSorted stop tbl)
      ↔ ∃ r ∈ tbl, qualifies stop r = true ∧ r.company_id = c2 := by
    intro c2
    unfold keysOf
    rw [List.mem_dedup]
    constructor
    · intro h
      rcases List.mem_map.mp h with ⟨r, hr, hid⟩
      have hr2 : r ∈ tbl.filter (qualifies stop) :=
        (List.perm_insertionSort levelAsc _).mem_iff.mp hr
      rcases List.mem_filter.mp hr2 with ⟨hrt, hq⟩
      exact ⟨r, hrt, hq, hid⟩
    · rintro ⟨r, hrt, hq, hid⟩
      apply List.mem_map.mpr
      refine ⟨r, ?_, hid⟩
      exact (List.perm_insertionSort levelAsc _).mem_iff.mpr
        (List.mem_filter.mpr ⟨hrt, hq⟩)
  have hkeys2 : ∀ c2 : ℕ, c2 ∈ keysOf (restSorted stop tbl)
      ↔ ∃ r ∈ tbl, ((keysOf (qualSorted stop tbl)).contains r.company_id = false)
          ∧ r.company_id = c2 := by
    intro c2
    unfold keysOf
    rw [List.mem_dedup]
    constructor
    · intro h
      rcases List.mem_map.mp h with ⟨r, hr, hid⟩
      have hr2 : r ∈ restRows stop tbl :=
        (List.perm_insertionSort levelDesc _).mem_iff.mp hr
      rcases List.mem_filter.mp hr2 with ⟨hrt, hq⟩
      refine ⟨r, hrt, ?_, hid⟩
      simpa only [Bool.not_eq_true'] using hq
    · rintro ⟨r, hrt, hq, hid⟩
      apply List.mem_map.mpr
      refine ⟨r, ?_, hid⟩
      apply (List.perm_insertionSort levelDesc _).mem_iff.mpr
      apply List.mem_filter.mpr
      exact ⟨hrt, by simpa only [Bool.not_eq_true'] using hq⟩
  refine ⟨?_, ?_, ?_⟩
  · rw [hdef, List.countP_append,
      countP_keys_filterMap (firstFor (qualSorted stop tbl))
        (keysOf (qualSorted stop tbl)) c (List.nodup_dedup _)
        (fun k hk => firstFor_isSome _ k hk),
      countP_keys_filterMap (firstFor (restSorted stop tbl))
        (keysOf (restSorted stop tbl)) c (List.nodup_dedup _)
        (fun k hk => firstFor_isSome _ k hk)]
    by_cases h1 : c ∈ keysOf (qualSorted stop tbl)
    · have h2 : c ∉ keysOf (restSorted stop tbl) := by
        intro h2
        rcases (hkeys2 c).mp h2 with ⟨r, hrt, hcont, hid⟩
        rw [hid] at hcont
        have h3 : (keysOf (qualSorted stop tbl)).contains c = true :=
          List.elem_iff.mpr h1
        rw [h3] at hcont
        simp at hcont
      simp [h1, h2]
    · have h2 : c ∈ keysOf (restSorted stop tbl) := by
        rcases List.mem_map.mp hc with ⟨r, hrt, hid⟩
        apply (hkeys2 c).mpr
        refine ⟨r, hrt, ?_, hid⟩
        rw [hid]
        exact Bool.eq_false_iff.mpr fun h => h1 (List.elem_iff.mp h)
      simp [h1, h2]
  · rintro ⟨r, hrt, hq, hid⟩
    have h1 : c ∈ keysOf (qualSorted stop tbl) := (hkeys1 c).mpr ⟨r, hrt, hq, hid⟩
    rcases Option.isSome_iff_exists.mp (firstFor_isSome _ c h1) with ⟨x, hx⟩
    rcases firstFor_sorted_rel levelAsc (tbl.filter (qualifies stop)) c x hx with
      ⟨hxq, hxid, hxmin⟩
    rcases List.mem_filter.mp hxq with ⟨hxt, hxqual⟩
    refine ⟨x, hxt, hxqual, hxid, ?_, ?_⟩
    · rw [hdef]
      apply List.mem_append_left
      apply List.mem_filterMap.mpr
      exact ⟨c, h1, by rw [hx]; rfl⟩
    · intro r2 hr2 hq2 hid2
      exact hxmin r2 (List.mem_filter.mpr ⟨hr2, hq2⟩) hid2
  · intro hnex
    have h1 : c ∉ keysOf (qualSorted stop tbl) := by
      intro h
      exact hnex ((hkeys1 c).mp h)
    rcases List.mem_map.mp hc with ⟨r, hrt, hid⟩
    have hcont : (keysOf (qualSorted stop tbl)).contains r.company_id = false := by
      rw [hid]
      exact Bool.eq_false_iff.mpr fun h => h1 (List.elem_iff.mp h)
    have h2 : c ∈ keysOf (restSorted stop tbl) := (hkeys2 c).mpr ⟨r, hrt, hcont, hid⟩
    rcases Option.isSome_iff_exists.mp (firstFor_isSome _ c h2) with ⟨x, hx⟩
    rcases firstFor_sorted_rel levelDesc (restRows stop tbl) c x hx with
      ⟨hxr, hxid, hxmax⟩
    have hxt : x ∈ tbl := (List.mem_filter.mp hxr).1
    refine ⟨x, hxt, hxid, ?_, ?_⟩
    · rw [hdef]
      apply List.mem_append_right
      apply List.mem_filterMap.mpr
      exact ⟨c, h2, by rw [hx]; rfl⟩
    · intro r2 hr2 hid2
      have hr2cont : (keysOf (qualSorted stop tbl)).contains r2.company_id = false := by
        rw [hid2]
        exact Bool.eq_false_iff.mpr fun h => h1 (List.elem_iff.mp h)
      have hr2rest : r2 ∈ restRows stop tbl := by
        apply List.mem_filter.mpr
        exact ⟨hr2, by simpa using hr2cont⟩
      exact hxmax r2 hr2rest hid2

/-- Witness for C4 at a three-row ownership table: company 1 has one
qualifying (ultimate-parent) record and resolves through it, company 2 has
none and resolves through its fallback record, and each company receives
exactly one row. -/
theorem C4_witness :
    ((get_parent_companies false
        [⟨1, 10, true, false, false, 2⟩, ⟨1, 11, true, false, true, 1⟩,
         ⟨2, 12, false, false, false, 3⟩] true).countP fun q => q.1 == 1) = 1
    ∧ (∃ r ∈ ([⟨1, 10, true, false, false, 2⟩, ⟨1, 11, true, false, true, 1⟩,
          ⟨2, 12, false, false, false, 3⟩] : List ORow),
        qualifies false r = true ∧ r.company_id = 1
          ∧ (1, r.parent_company_id) ∈ get_parent_companies false
              [⟨1, 10, true, false, false, 2⟩, ⟨1, 11, true, false, true, 1⟩,
               ⟨2, 12, false, false, false, 3⟩] true
          ∧ ∀ r2 ∈ ([⟨1, 10, true, false, false, 2⟩, ⟨1, 11, true, false, true, 1⟩,
              ⟨2, 12, false, false, false, 3⟩] : List ORow),
              qualifies false r2 = true → r2.company_id = 1 →
                r.ownership_level ≤ r2.ownership_level)
    ∧ (∃ r ∈ ([⟨1, 10, true, false, false, 2⟩, ⟨1, 11, true, false, true, 1⟩,
          ⟨2, 12, false, false, false, 3⟩] : List ORow),
        r.company_id = 2
          ∧ (2, r.parent_company_id) ∈ get_parent_companies false
              [⟨1, 10, true, false, false, 2⟩, ⟨1, 11, true, false, true, 1⟩,
               ⟨2, 12, false, false, false, 3⟩] true
          ∧ ∀ r2 ∈ ([⟨1, 10, true, false, false, 2⟩, ⟨1, 11, true, false, true, 1⟩,
              ⟨2, 12, false, false, false, 3⟩] : List ORow),
              r2.company_id = 2 → r2.ownership_level ≤ r.ownership_level) :=
  ⟨(C4_parent_resolution false
      [⟨1, 10, true, false, false, 2⟩, ⟨1, 11, true, false, true, 1⟩,
       ⟨2, 12, false, false, false, 3⟩] 1 (by decide)).1,
   (C4_parent_resolution false
      [⟨1, 10, true, false, false, 2⟩, ⟨1, 11, true, false, true, 1⟩,
       ⟨2, 12, false, false, false, 3⟩] 1 (by decide)).2.1 (by decide),
   (C4_parent_resolution false
      [⟨1, 10, true, false, false, 2⟩, ⟨1, 11, true, false, true, 1⟩,
       ⟨2, 12, false, false, false, 3⟩] 2 (by decide)).2.2 (by decide)⟩

theorem isEmpty_map {α β : Type} (f : α → β) (l : List α) :
    (l.map f).isEmpty = l.isEmpty := by
  cases l <;> rfl

theorem iniTotalLookup_core (df : List PactaRow) (sy : ℤ) (c : ℕ) (s r : String) :
    iniTotalLookup df sy c s r = iniTotalLookupC (df.map PactaRow.core) sy c s r := by
  show (if (df.filter fun x =>
        x.year == sy && x.company_id == c && x.sector == s && x.region == r).isEmpty
      then none
      else some (prodSum (df.filter fun x =>
        x.year == sy && x.company_id == c && x.sector == s && x.region == r)))
    = (if ((df.map PactaRow.core).filter fun x =>
        x.year == sy && x.company_id == c && x.sector == s && x.region == r).isEmpty
      then none
      else some ((((df.map PactaRow.core).filter fun x =>
        x.year == sy && x.company_id == c && x.sector == s && x.region == r).map
          PRowCore.production).sum))
  rw [List.filter_map, isEmpty_map, List.map_map]
  rfl

theorem iniTechLookup_core (df : List PactaRow) (sy : ℤ) (c : ℕ) (s r t : String) :
    iniTechLookup df sy c s r t = iniTechLookupC (df.map PactaRow.core) sy c s r t := by
  show (if (df.filter fun x =>
        x.year == sy && x.technology == t && x.company_id == c
          && x.sector == s && x.region == r).isEmpty
      then none
      else some (prodSum (df.filter fun x =>
        x.year == sy && x.technology == t && x.company_id == c
          && x.sector == s && x.region == r)))
    = (if ((df.map PactaRow.core).filter fun x =>
        x.year == sy && x.technology == t && x.company_id == c
          && x.sector == s && x.region == r).isEmpty
      then none
      else some ((((df.map PactaRow.core).filter fun x =>
        x.year == sy && x.technology == t && x.company_id == c
          && x.sector == s && x.region == r).map PRowCore.production).sum))
  rw [List.filter_map, isEmpty_map, List.map_map]
  rfl

theorem iniLocTechLookup_core (df : List PactaRow) (sy : ℤ) (c : ℕ)
    (pl s t r : String) :
    iniLocTechLookup df sy c pl s t r
      = iniLocTechLookupC (df.map PactaRow.core) sy c pl s t r := by
  show (if (df.filter fun x =>
        x.year == sy && x.company_id == c && x.plant_location == pl
          && x.technology == t && x.sector == s && x.region == r).isEmpty
      then none
      else some (prodSum (df.filter fun x =>
        x.year == sy && x.company_id == c && x.plant_location == pl
          && x.technology == t && x.sector == s && x.region == r)))
    = (if ((df.map PactaRow.core).filter fun x =>
        x.year == sy && x.company_id == c && x.plant_location == pl
          && x.technology == t && x.sector == s && x.region == r).isEmpty
      then none
      else some ((((df.map PactaRow.core).filter fun x =>
        x.year == sy && x.company_id == c && x.plant_location == pl
          && x.technology == t && x.sector == s && x.region == r).map
            PRowCore.production).sum))
  rw [List.filter_map, isEmpty_map, List.map_map]
  rfl

theorem iniTotalLookup_inv (df df2 : List PactaRow)
    (h : df.map PactaRow.core = df2.map PactaRow.core) (sy : ℤ) (c : ℕ)
    (s r : String) : iniTotalLookup df sy c s r = iniTotalLookup df2 sy c s r := by
  rw [iniTotalLookup_core, iniTotalLookup_core, h]

theorem iniTechLookup_inv (df df2 : List PactaRow)
    (h : df.map PactaRow.core = df2.map PactaRow.core) (sy : ℤ) (c : ℕ)
    (s r t : String) : iniTechLookup df sy c s r t = iniTechLookup df2 sy c s r t := by
  rw [iniTechLookup_core, iniTechLookup_core, h]

theorem iniLocTechLookup_inv (df df2 : List PactaRow)
    (h : df.map PactaRow.core = df2.map PactaRow.core) (sy : ℤ) (c : ℕ)
    (pl s t r : String) :
    iniLocTechLookup df sy c pl s t r = iniLocTechLookup df2 sy c pl s t r := by
  rw [iniLocTechLookup_core, iniLocTechLookup_core, h]

theorem tms_sector_step_core (s : String) (sy : ℤ) (df : List PactaRow) (t : String) :
    (tms_sector_step s sy df t).map PactaRow.core = df.map PactaRow.core := by
  unfold tms_sector_step
  rw [List.map_map]
  apply List.map_congr_left
  intro x _
  simp only [Function.comp_apply]
  split <;> rfl

theorem tms_tech_step_core (s : String) (sy : ℤ) (df : List PactaRow) (t : String) :
    (tms_tech_step s sy df t).map PactaRow.core = df.map PactaRow.core := by
  unfold tms_tech_step
  rw [List.map_map]
  apply List.map_congr_left
  intro x _
  simp only [Function.comp_apply]
  split <;> rfl

theorem sector_fold_core (s : String) (sy : ℤ) (ts : List String) :
    ∀ df : List PactaRow,
      (ts.foldl (tms_sector_step s sy) df).map PactaRow.core = df.map PactaRow.core := by
  induction ts with
  | nil => intro df; rfl
  | cons t ts ih =>
      intro df
      simp only [List.foldl_cons]
      rw [ih, tms_sector_step_core]

theorem tech_fold_core (s : String) (sy : ℤ) (ts : List String) :
    ∀ df : List PactaRow,
      (ts.foldl (tms_tech_step s sy) df).map PactaRow.core = df.map PactaRow.core := by
  induction ts with
  | nil => intro df; rfl
  | cons t ts ih =>
      intro df
      simp only [List.foldl_cons]
      rw [ih, tms_tech_step_core]

theorem sector_fold_get (s : String) (sy : ℤ) (ts : List String) (i : ℕ)
    (r : PactaRow) (df0 : List PactaRow) :
    ∀ (df : List PactaRow) (r' : PactaRow),
      df.map PactaRow.core = df0.map PactaRow.core →
      df[i]? = some r' → PactaRow.core r' = PactaRow.core r →
      ∃ r2 : PactaRow, (ts.foldl (tms_sector_step s sy) df)[i]? = some r2
        ∧ PactaRow.core r2 = PactaRow.core r
        ∧ ((r.technology ∈ ts ∧ r.sector = s) → r2.target = targetSectorVal df0 sy r)
        ∧ ((r.technology ∉ ts ∨ r.sector ≠ s) → r2.target = r'.target) := by
  induction ts with
  | nil =>
      intro df r' hcore hget hrc
      exact ⟨r', hget, hrc, fun h => absurd h.1 (List.not_mem_nil _), fun _ => rfl⟩
  | cons t ts ih =>
      intro df r' hcore hget hrc
      have hcore' : (tms_sector_step s sy df t).map PactaRow.core
          = df0.map PactaRow.core := by
        rw [tms_sector_step_core]
        exact hcore
      have htech : r'.technology = r.technology := congrArg PRowCore.technology hrc
      have hsec2 : r'.sector = r.sector := congrArg PRowCore.sector hrc
      have hcid : r'.company_id = r.company_id := congrArg PRowCore.company_id hrc
      have hreg : r'.region = r.region := congrArg PRowCore.region hrc
      have hsm : r'.smsp = r.smsp := congrArg PRowCore.smsp hrc
      simp only [List.foldl_cons]
      by_cases hmatch : r.technology = t ∧ r.sector = s
      · have hb : (r'.technology == t && r'.sector == s) = true := by
          rw [htech, hsec2]
          simp [hmatch.1, hmatch.2]
        have hstep : (tms_sector_step s sy df t)[i]?
            = some { r' with target :=
                match iniTotalLookup df sy r'.company_id r'.sector r'.region, r'.smsp,
                      iniTechLookup df sy r'.company_id r'.sector r'.region t with
                | some tot, some sm, some ini => some (tot * sm + ini)
                | _, _, _ => none } := by
          unfold tms_sector_step
          rw [List.getElem?_map, hget]
          simp only [Option.map_some']
          rw [if_pos hb]
        have hval : (match iniTotalLookup df sy r'.company_id r'.sector r'.region,
              r'.smsp,
              iniTechLookup df sy r'.company_id r'.sector r'.region t with
            | some tot, some sm, some ini => some (tot * sm + ini)
            | _, _, _ => none) = targetSectorVal df0 sy r := by
          rw [hcid, hsec2, hreg, hsm,
            iniTotalLookup_inv df df0 hcore, iniTechLookup_inv df df0 hcore]
          unfold targetSectorVal
          rw [hmatch.1]
        rw [hval] at hstep
        rcases ih (tms_sector_step s sy df t)
            { r' with target := targetSectorVal df0 sy r } hcore' hstep hrc with
          ⟨r2, hg2, hc2, hv1, hv2⟩
        have hfinal : r2.target = targetSectorVal df0 sy r := by
          by_cases hmem : r.technology ∈ ts
          · exact hv1 ⟨hmem, hmatch.2⟩
          · exact hv2 (Or.inl hmem)
        refine ⟨r2, hg2, hc2, fun _ => hfinal, ?_⟩
        rintro (hh | hh)
        · exact absurd (List.mem_cons_self t ts) (hmatch.1 ▸ hh)
        · exact absurd hmatch.2 hh
      · have hb : (r'.technology == t && r'.sector == s) = false := by
          rw [htech, hsec2]
          by_cases h1 : r.technology = t
          · have h2 : ¬r.sector = s := fun h2 => hmatch ⟨h1, h2⟩
            simp [h1, h2]
          · simp [h1]
        have hstep : (tms_sector_step s sy df t)[i]? = some r' := by
          unfold tms_sector_step
          rw [List.getElem?_map, hget]
          simp only [Option.map_some']
          rw [if_neg (by simp [hb])]
        rcases ih (tms_sector_step s sy df t) r' hcore' hstep hrc with
          ⟨r2, hg2, hc2, hv1, hv2⟩
        refine ⟨r2, hg2, hc2, ?_, ?_⟩
        · rintro ⟨hmem, hsecr⟩
          rcases List.mem_cons.mp hmem with he | he
          · exact absurd ⟨he, hsecr⟩ hmatch
          · exact hv1 ⟨he, hsecr⟩
        · rintro (hh | hh)
          · exact hv2 (Or.inl fun hmem => hh (List.mem_cons_of_mem t hmem))
          · exact hv2 (Or.inr hh)

theorem tech_fold_get (s : String) (sy : ℤ) (ts : List String) (i : ℕ)
    (r : PactaRow) (df0 : List PactaRow) :
    ∀ (df : List PactaRow) (r' : PactaRow),
      df.map PactaRow.core = df0.map PactaRow.core →
      df[i]? = some r' → PactaRow.core r' = PactaRow.core r →
      ∃ r2 : PactaRow, (ts.foldl (tms_tech_step s sy) df)[i]? = some r2
        ∧ PactaRow.core r2 = PactaRow.core r
        ∧ ((r.technology ∈ ts ∧ r.sector = s) → r2.target = targetTechVal df0 sy r)
        ∧ ((r.technology ∉ ts ∨ r.sector ≠ s) → r2.target = r'.target) := by
  induction ts with
  | nil =>
      intro df r' hcore hget hrc
      exact ⟨r', hget, hrc, fun h => absurd h.1 (List.not_mem_nil _), fun _ => rfl⟩
  | cons t ts ih =>
      intro df r' hcore hget hrc
      have hcore' : (tms_tech_step s sy df t).map PactaRow.core
          = df0.map PactaRow.core := by
        rw [tms_tech_step_core]
        exact hcore
      have htech : r'.technology = r.technology := congrArg PRowCore.technology hrc
      have hsec2 : r'.sector = r.sector := congrArg PRowCore.sector hrc
      have hcid : r'.company_id = r.company_id := congrArg PRowCore.company_id hrc
      have hreg : r'.region = r.region := congrArg PRowCore.region hrc
      have hpl : r'.plant_location = r.plant_location :=
        congrArg PRowCore.plant_location hrc
      have htm : r'.tmsr = r.tmsr := congrArg PRowCore.tmsr hrc
      simp only [List.foldl_cons]
      by_cases hmatch : r.technology = t ∧ r.sector = s
      · have hb : (r'.technology == t && r'.sector == s) = true := by
          rw [htech, hsec2]
          simp [hmatch.1, hmatch.2]
        have hstep : (tms_tech_step s sy df t)[i]?
            = some { r' with target :=
                match (iniLocTechLookup df sy r'.company_id r'.plant_location
                        r'.sector r'.technology r'.region), r'.tmsr with
                | some ini, some tm => some (ini * tm)
                | _, _ => none } := by
          unfold tms_tech_step
          rw [List.getElem?_map, hget]
          simp only [Option.map_some']
          rw [if_pos hb]
        have hval : (match (iniLocTechLookup df sy r'.company_id r'.plant_location
                r'.sector r'.technology r'.region), r'.tmsr with
            | some ini, some tm => some (ini * tm)
            | _, _ => none) = targetTechVal df0 sy r := by
          rw [hcid, hpl, hsec2, hreg, htech, htm, iniLocTechLookup_inv df df0 hcore]
          unfold targetTechVal
          rfl
        rw [hval] at hstep
        rcases ih (tms_tech_step s sy df t)
            { r' with target := targetTechVal df0 sy r } hcore' hstep hrc with
          ⟨r2, hg2, hc2, hv1, hv2⟩
        have hfinal : r2.target = targetTechVal df0 sy r := by
          by_cases hmem : r.technology ∈ ts
          · exact hv1 ⟨hmem, hmatch.2⟩
          · exact hv2 (Or.inl hmem)
        refine ⟨r2, hg2, hc2, fun _ => hfinal, ?_⟩
        rintro (hh | hh)
        · exact absurd (List.mem_cons_self t ts) (hmatch.1 ▸ hh)
        · exact absurd hmatch.2 hh
      · have hb : (r'.technology == t && r'.sector == s) = false := by
          rw [htech, hsec2]
          by_cases h1 : r.technology = t
          · have h2 : ¬r.sector = s := fun h2 => hmatch ⟨h1, h2⟩
            simp [h1, h2]
          · simp [h1]
        have hstep : (tms_tech_step s sy df t)[i]? = some r' := by
          unfold tms_tech_step
          rw [List.getElem?_map, hget]
          simp only [Option.map_some']
          rw [if_neg (by simp [hb])]
        rcases ih (tms_tech_step s sy df t) r' hcore' hstep hrc with
          ⟨r2, hg2, hc2, hv1, hv2⟩
        refine ⟨r2, hg2, hc2, ?_, ?_⟩
        · rintro ⟨hmem, hsecr⟩
          rcases List.mem_cons.mp hmem with he | he
          · exact absurd ⟨he, hsecr⟩ hmatch
          · exact hv1 ⟨he, hsecr⟩
        · rintro (hh | hh)
          · exact hv2 (Or.inl fun hmem => hh (List.mem_cons_of_mem t hmem))
          · exact hv2 (Or.inr hh)

/-- C1: for a sector configured with the tms approach, _calculate_tms sets
the target of every row whose technology is in the sector-level list (and
not also in the technology-level list) to the company's total sector-region
production at the scenario year times smsp plus the company's production in
that technology at the scenario year, and sets the target of every row whose
technology is in the technology-level list to the company's production in
that exact (technology, plant_location, region) combination at the scenario
year times tmsr, whenever those scenario-year productions and the scenario
parameter are present. -/
theorem C1_tms_targets (df : List PactaRow) (s : String) (cfg : SectorSettings)
    (sy : ℤ) (i : ℕ) (r : PactaRow) (hget : df[i]? = some r) (hsec : r.sector = s) :
    (r.technology ∈ cfg.sector → r.technology ∉ cfg.technology →
      ∀ tot sm ini : ℚ,
        iniTotalLookup df sy r.company_id r.sector r.region = some tot →
        r.smsp = some sm →
        iniTechLookup df sy r.company_id r.sector r.region r.technology = some ini →
        ∃ r2 : PactaRow, (calculate_tms df s cfg sy)[i]? = some r2
          ∧ r2.target = some (tot * sm + ini))
    ∧ (r.technology ∈ cfg.technology →
      ∀ ini tm : ℚ,
        iniLocTechLookup df sy r.company_id r.plant_location r.sector
          r.technology r.region = some ini →
        r.tmsr = some tm →
        ∃ r2 : PactaRow, (calculate_tms df s cfg sy)[i]? = some r2
          ∧ r2.target = some (ini * tm)) := by
  have hcalc : calculate_tms df s cfg sy
      = cfg.technology.foldl (tms_tech_step s sy)
          (cfg.sector.foldl (tms_sector_step s sy) df) := rfl
  constructor
  · intro hin hnotin tot sm ini htot hsm hini
    rcases sector_fold_get s sy cfg.sector i r df df r rfl hget rfl with
      ⟨rA, hgA, hcA, hv1, _⟩
    have hAval : rA.target = targetSectorVal df sy r := hv1 ⟨hin, hsec⟩
    rcases tech_fold_get s sy cfg.technology i r df
        (cfg.sector.foldl (tms_sector_step s sy) df) rA
        (sector_fold_core s sy cfg.sector df) hgA hcA with
      ⟨rB, hgB, _, _, hw2⟩
    have hBval : rB.target = rA.target := hw2 (Or.inl hnotin)
    refine ⟨rB, by rw [hcalc]; exact hgB, ?_⟩
    rw [hBval, hAval]
    unfold targetSectorVal
    rw [htot, hsm, hini]
  · intro hin ini tm hini htm
    rcases sector_fold_get s sy cfg.sector i r df df r rfl hget rfl with
      ⟨rA, hgA, hcA, _, _⟩
    rcases tech_fold_get s sy cfg.technology i r df
        (cfg.sector.foldl (tms_sector_step s sy) df) rA
        (sector_fold_core s sy cfg.sector df) hgA hcA with
      ⟨rB, hgB, _, hw1, _⟩
    have hBval : rB.target = targetTechVal df sy r := hw1 ⟨hin, hsec⟩
    refine ⟨rB, by rw [hcalc]; exact hgB, ?_⟩
    rw [hBval]
    unfold targetTechVal
    rw [hini, htm]

/-- Witness for C1: a three-row frame for company 7 in sector power with
scenario-year rows for coal (40) and gas (60); the coal row (sector-level,
smsp one half) receives (40 + 60) times one half plus 40, and the gas row
(technology-level, tmsr three quarters) receives 60 times three quarters. -/
theorem C1_witness :
    (∃ r2 : PactaRow,
      (calculate_tms
        [⟨7, "power", "coal", "NL", "global", 2025, 50, some (1 / 2), none, none⟩,
         ⟨7, "power", "coal", "NL", "global", 2030, 40, none, none, none⟩,
         ⟨7, "power", "gas", "NL", "global", 2030, 60, none, some (3 / 4), none⟩]
        "power" ⟨["coal"], ["gas"], [], [], []⟩ 2030)[0]? = some r2
      ∧ r2.target = some ((40 + (60 + 0)) * (1 / 2) + (40 + 0)))
    ∧ (∃ r2 : PactaRow,
      (calculate_tms
        [⟨7, "power", "coal", "NL", "global", 2025, 50, some (1 / 2), none, none⟩,
         ⟨7, "power", "coal", "NL", "global", 2030, 40, none, none, none⟩,
         ⟨7, "power", "gas", "NL", "global", 2030, 60, none, some (3 / 4), none⟩]
        "power" ⟨["coal"], ["gas"], [], [], []⟩ 2030)[2]? = some r2
      ∧ r2.target = some ((60 + 0) * (3 / 4))) :=
  ⟨(C1_tms_targets
      [⟨7, "power", "coal", "NL", "global", 2025, 50, some (1 / 2), none, none⟩,
       ⟨7, "power", "coal", "NL", "global", 2030, 40, none, none, none⟩,
       ⟨7, "power", "gas", "NL", "global", 2030, 60, none, some (3 / 4), none⟩]
      "power" ⟨["coal"], ["gas"], [], [], []⟩ 2030 0
      ⟨7, "power", "coal", "NL", "global", 2025, 50, some (1 / 2), none, none⟩
      rfl rfl).1 (by decide) (by decide) (40 + (60 + 0)) (1 / 2) (40 + 0)
      rfl rfl rfl,
   (C1_tms_targets
      [⟨7, "power", "coal", "NL", "global", 2025, 50, some (1 / 2), none, none⟩,
       ⟨7, "power", "coal", "NL", "global", 2030, 40, none, none, none⟩,
       ⟨7, "power", "gas", "NL", "global", 2030, 60, none, some (3 / 4), none⟩]
      "power" ⟨["coal"], ["gas"], [], [], []⟩ 2030 2
      ⟨7, "power", "gas", "NL", "global", 2030, 60, none, some (3 / 4), none⟩
      rfl rfl).2 (by decide) (60 + 0) (3 / 4) rfl rfl⟩

end AlignmentCalc
